import Mathlib

/-!
# Calendar navigation of `thru` (src/thru.go)

A shallow embedding of the Go package `thru` and of the part of Go's standard
`time` package it calls.

Modelling conventions.

* Go `int` and `int64` are 64-bit: every addition, subtraction and
  multiplication of the source that can leave the range is wrapped by
  `wrapInt64`; Go's truncating `/` and `%` are `Int.tdiv` and `Int.tmod`.
  Arguments are integers of Lean and stand for the `int` of the same value.
* A variadic parameter `xs ...int` is a `List Int` (`nil` is `[]`).
* A Go run-time panic (an array index out of range) is `none`.
* `time.Time` is an instant with nanosecond resolution shown in a location. A
  location is an offset from UTC and a list of later transitions to other
  offsets (daylight saving); `Date` resolves a wall-clock time with the zone
  lookup of package `time`, and it wraps the seconds of an instant to 64 bits
  as package `time` does.
* `float64` results of `DiffIn` are exact rationals; the `float64` detours of
  `Go` through `math.Min` and `math.Max` are integer `min` and `max`, which
  agree with them on every 64-bit input because the result is clamped to a
  range of small integers.
-/

/-! ## Go standard library: package `time` -/

namespace gotime

/-- A Go `int64` after wrap-around: the representative of `x` modulo `2^64`
in `[-2^63, 2^63)`. -/
def wrapInt64 (x : Int) : Int :=
  (x + 9223372036854775808) % 18446744073709551616 - 9223372036854775808

/-- A location: the offset in seconds east of UTC that is in effect before the
first transition, and the transitions in ascending order, each the Unix second
from which a new offset is in effect. -/
structure Location where
  offset : Int
  trans : List (Int × Int)
  deriving DecidableEq, Repr

/-- Go `time.UTC`. -/
def UTC : Location := ⟨0, []⟩

/-- Go `time.FixedZone`: a location that always has the given offset. -/
def FixedZone (offset : Int) : Location := ⟨offset, []⟩

/-- Start of the first zone period (`alpha` in package `time`). -/
def alpha : Int := -9223372036854775808

/-- End of the last zone period (`omega` in package `time`). -/
def omegaSec : Int := 9223372036854775807

/-- Zone lookup over the transitions still ahead: the offset in effect at the
Unix second `sec` and the bounds of the period that has this offset. -/
def lookupFrom (offset start : Int) : List (Int × Int) → Int → Int × Int × Int
  | [], _ => (offset, start, omegaSec)
  | (w, o) :: rest, sec => if sec < w then (offset, start, w) else lookupFrom o w rest sec

/-- Go `Location.lookup`: offset, start and end of the zone period in effect at
the Unix second `sec`. -/
def Location.lookup (l : Location) (sec : Int) : Int × Int × Int :=
  lookupFrom l.offset alpha l.trans sec

/-- An instant: nanoseconds since 1970-01-01T00:00:00Z, shown in `loc`. -/
structure Time where
  ns : Int
  loc : Location
  deriving DecidableEq, Repr

/-- Gregorian leap year rule used by package `time`. -/
def isLeap (year : Int) : Bool :=
  year % 4 == 0 && (year % 100 != 0 || year % 400 == 0)

/-- Number of days from 0001-01-01 to the first of January of `year`. -/
def daysSinceEpoch (year : Int) : Int :=
  365 * (year - 1) + (year - 1) / 4 - (year - 1) / 100 + (year - 1) / 400

/-- Table `daysBefore`: days of a non-leap year before month `m + 1`. -/
def daysBefore (m : Int) : Int :=
  if m ≤ 0 then 0 else if m = 1 then 31 else if m = 2 then 59 else if m = 3 then 90
  else if m = 4 then 120 else if m = 5 then 151 else if m = 6 then 181
  else if m = 7 then 212 else if m = 8 then 243 else if m = 9 then 273
  else if m = 10 then 304 else if m = 11 then 334 else 365

/-- Days of a year before the first of `month` (1..12); `leap` tells whether
the year is a leap year. -/
def daysBeforeMonth (leap : Bool) (month : Int) : Int :=
  daysBefore (month - 1) + (if leap && decide (3 ≤ month) then 1 else 0)

/-- Length of `month` (1..12) of a leap or non-leap year. -/
def daysInMonth (leap : Bool) (month : Int) : Int :=
  if month = 2 ∧ leap = true then 29 else daysBefore month - daysBefore (month - 1)

/-- Go `norm`: carry `lo` into `hi` so that `0 ≤ lo < base`. -/
def norm (hi lo base : Int) : Int × Int :=
  (wrapInt64 (hi + lo / base), lo % base)

/-- Seconds from 0001-01-01T00:00:00Z to the Unix epoch (`unixToInternal`). -/
def unixToAbs : Int := 62135596800

/-- Seconds from the absolute zero of package `time`, the first of January of
the year -292277022399, to 0001-01-01T00:00:00Z (`internalToAbsolute` negated
twice); a multiple of the seconds of a week. -/
def yearOneToAbsolute : Int := 9223371966579724800

/-- The year of the absolute zero of package `time`. -/
def absoluteZeroYear : Int := -292277022399

/-- Go `daysSinceEpoch`: days from the first of January of the absolute zero
year to the first of January of `year`. The years since the absolute zero year
are a `uint64`, so a year before it wraps around. -/
def daysSinceZero (year : Int) : Int :=
  let y := (year - absoluteZeroYear) % 18446744073709551616
  365 * y + y / 4 - y / 100 + y / 400

/-- Seconds of the wall-clock time that `Date` is given, counted from the Unix
epoch as if the location were UTC: the fields are normalised, the days are
counted from the absolute zero of package `time`, and the seconds, which
package `time` computes in unsigned 64-bit arithmetic, wrap to an `int64`. -/
def dateUnix (year month day hour min sec nsec : Int) : Int :=
  let ym := norm year (wrapInt64 (month - 1)) 12
  let year := ym.1
  let month := ym.2 + 1
  let sn := norm sec nsec 1000000000
  let ms := norm min sn.1 60
  let hm := norm hour ms.1 60
  let dh := norm day hm.1 24
  let d := daysSinceZero year + daysBeforeMonth (isLeap year) month + (dh.1 - 1)
  let abs := d * 86400 + dh.2 * 3600 + hm.2 * 60 + ms.2
  wrapInt64 (abs - yearOneToAbsolute - unixToAbs)

/-- Zone resolution of `Date`: the Unix second of the wall-clock second `unix`
in location `loc`. The offset found at `unix` is used when it is in effect at
the resulting second, otherwise the offset found there is used. -/
def resolveZone (loc : Location) (unix : Int) : Int :=
  let z := loc.lookup unix
  if z.1 ≠ 0 then
    let utc := wrapInt64 (unix - z.1)
    let offset := if utc < z.2.1 ∨ utc ≥ z.2.2 then (loc.lookup utc).1 else z.1
    wrapInt64 (unix - offset)
  else unix

/-- Go `time.Date`: normalises out-of-range fields, resolves the zone and
builds the instant. -/
def Date (year month day hour min sec nsec : Int) (loc : Location) : Time :=
  ⟨resolveZone loc (dateUnix year month day hour min sec nsec) * 1000000000
    + nsec % 1000000000, loc⟩

/-- Go `time.Unix(sec, nsec)` shown in location `loc`. -/
def Unix (sec nsec : Int) (loc : Location) : Time :=
  ⟨wrapInt64 (sec + nsec / 1000000000) * 1000000000 + nsec % 1000000000, loc⟩

/-- Seconds since the Unix epoch. -/
def Time.unixSec (t : Time) : Int := t.ns / 1000000000

/-- Local wall-clock seconds since 0001-01-01T00:00:00. Package `time` counts
them from its absolute zero in an unsigned 64-bit integer. -/
def Time.abs (t : Time) : Int :=
  (t.unixSec + (t.loc.lookup t.unixSec).1 + unixToAbs + yearOneToAbsolute)
    % 18446744073709551616 - yearOneToAbsolute

/-- Local day number since 0001-01-01. -/
def Time.absDays (t : Time) : Int := t.abs / 86400

/-- Go `absDate`, year part: the year of day number `d` and the zero-based day
within that year. -/
def yearOfDays (d : Int) : Int × Int :=
  let n400 := d / 146097
  let d1 := d - 146097 * n400
  let n100 := d1 / 36524
  let n100 := n100 - n100 / 4
  let d2 := d1 - 36524 * n100
  let n4 := d2 / 1461
  let d3 := d2 - 1461 * n4
  let n := d3 / 365
  let n := n - n / 4
  let d4 := d3 - 365 * n
  (400 * n400 + 100 * n100 + 4 * n4 + n + 1, d4)

/-- Go `absDate`, month part: month (1..12) and day of month of the zero-based
day `yday` of a leap or non-leap year. -/
def monthDayOfYday (leap : Bool) (yday : Int) : Int × Int :=
  if leap && decide (yday = 31 + 29 - 1) then (2, 29)
  else
    let day := if leap && decide (yday > 31 + 29 - 1) then yday - 1 else yday
    let month := day / 31
    let fin := daysBefore (month + 1)
    if day ≥ fin then (month + 2, day - fin + 1)
    else (month + 1, day - daysBefore month + 1)

def Time.Year (t : Time) : Int := (yearOfDays t.absDays).1

def Time.yday (t : Time) : Int := (yearOfDays t.absDays).2

def Time.Month (t : Time) : Int := (monthDayOfYday (isLeap t.Year) t.yday).1

def Time.Day (t : Time) : Int := (monthDayOfYday (isLeap t.Year) t.yday).2

def Time.YearDay (t : Time) : Int := t.yday + 1

def Time.Hour (t : Time) : Int := t.abs % 86400 / 3600

def Time.Minute (t : Time) : Int := t.abs % 3600 / 60

def Time.Second (t : Time) : Int := t.abs % 60

def Time.Nanosecond (t : Time) : Int := t.ns % 1000000000

def Time.Location (t : Time) : Location := t.loc

/-- Go `Weekday`: 0 is Sunday, 1 is Monday, up to 6 for Saturday; day number 0
(0001-01-01) is a Monday. -/
def Time.Weekday (t : Time) : Int := (t.absDays + 1) % 7

/-- Go `AddDate`. -/
def Time.AddDate (t : Time) (years months days : Int) : Time :=
  Date (wrapInt64 (t.Year + years)) (wrapInt64 (t.Month + months)) (wrapInt64 (t.Day + days))
    t.Hour t.Minute t.Second t.Nanosecond t.Location

def minDuration : Int := -9223372036854775808

def maxDuration : Int := 9223372036854775807

/-- Go `Sub`: the duration `t - u` in nanoseconds, saturating at the bounds of
`Duration` (package `time` computes the difference in 64 bits and falls back
to the bound when adding it to `u` does not give `t`). -/
def Time.Sub (t u : Time) : Int :=
  let d := t.ns - u.ns
  if d < minDuration then minDuration else if d > maxDuration then maxDuration else d

/-- Go `Time.Unix`: whole seconds since the Unix epoch. -/
def Time.Unix (t : Time) : Int := t.unixSec

/-- Go `Time.UnixNano`: seconds times `1e9` plus nanoseconds, computed in
`int64`. -/
def Time.UnixNano (t : Time) : Int := wrapInt64 (t.unixSec * 1000000000 + t.Nanosecond)

/-- A location that never changes its offset, the offset being at most a day:
`time.UTC` and every `time.FixedZone` of such an offset. -/
@[reducible] def Location.Fixed (l : Location) : Prop :=
  l.trans = [] ∧ -86400 ≤ l.offset ∧ l.offset ≤ 86400

/-- An integer within `10^11` of zero: years, offsets and selectors of this
size keep every 64-bit computation of the calendar far from wrapping. -/
@[reducible] def small (x : Int) : Prop := -100000000000 ≤ x ∧ x ≤ 100000000000

/-- The instants package `time` can hold: the Unix second is an `int64`. -/
@[reducible] def Time.Valid (t : Time) : Prop :=
  -9223372036854775808 ≤ t.unixSec ∧ t.unixSec ≤ 9223372036854775807

/-- Go `Duration.Hours`. -/
def Hours (d : Int) : ℚ := (d : ℚ) / 3600000000000

/-- Go `Duration.Minutes`. -/
def Minutes (d : Int) : ℚ := (d : ℚ) / 60000000000

/-- Go `Duration.Seconds`. -/
def Seconds (d : Int) : ℚ := (d : ℚ) / 1000000000

end gotime

/-! ## Package `thru` -/

namespace thru

open gotime (Location UTC FixedZone wrapInt64 small)

/-- Table `maxDays` (thru.go line 11). -/
def maxDays : List Int := [0, 31, 28, 31, 30, 31, 30, 31, 31, 30, 31, 30, 31]

/-- Type `Time` (thru.go line 14). -/
structure Time where
  time : gotime.Time
  deriving DecidableEq, Repr

/-- Modelled from the spec: `Clamp(value, min, max)`, which is not in thru.go,
returns `value` bounded to `[min, max]` inclusive. -/
def Clamp (value lo hi : Int) : Int :=
  if value < lo then lo else if value > hi then hi else value

/-- Function `IsLeapYear` (thru.go line 535). -/
def IsLeapYear (y : Int) : Bool :=
  Int.tmod y 4 == 0 && (Int.tmod y 100 != 0 || Int.tmod y 400 == 0)

/-- Function `DaysIn` (thru.go line 545); `none` is the index-out-of-range panic
of `maxDays[m[0]]`. -/
def DaysIn (y : Int) (m : List Int) : Option Int :=
  match m with
  | m0 :: _ =>
    if m0 == 2 && IsLeapYear y then some 29
    else if 0 ≤ m0 then maxDays[m0.toNat]? else none
  | [] => if IsLeapYear y then some 366 else some 365

/-- Function `Date` (thru.go line 28). The variadic `loc` is passed by every
caller below, so the model takes the location itself. -/
def Date (year month day hour min sec nsec : Int) (loc : Location) : Time :=
  ⟨gotime.Date year month day hour min sec nsec loc⟩

def Time.Year (t : Time) : Int := t.time.Year

def Time.Month (t : Time) : Int := t.time.Month

def Time.Day (t : Time) : Int := t.time.Day

def Time.Hour (t : Time) : Int := t.time.Hour

def Time.Minute (t : Time) : Int := t.time.Minute

/-- Method `Second` (thru.go line 291). -/
def Time.Second (t : Time) (n : List Int) : Int :=
  match n with
  | [] => t.time.Second
  | n0 :: _ =>
    if n0 == 0 then t.time.Second
    else Int.tdiv t.time.Nanosecond (10 ^ (9 - Clamp n0 1 9).toNat)

def Time.Weekday (t : Time) : Int := t.time.Weekday

def Time.YearDay (t : Time) : Int := t.time.YearDay

def Time.Location (t : Time) : Location := t.time.Location

/-- Method `Days` (thru.go line 315). -/
def Time.Days (t : Time) : Option Int := DaysIn t.Year []

/-- Method `MonthDays` (thru.go line 320). -/
def Time.MonthDays (t : Time) : Option Int := DaysIn t.Year [t.Month]

/-- Method `Sub` (thru.go line 451). -/
def Time.Sub (t u : Time) : Int := t.time.Sub u.time

/-- Lines 62 to 67 of `AddYear`: the year and month after the carry. -/
def Time.addYearMonth (t : Time) (y m : Int) : Int × Int :=
  let months := wrapInt64 (t.Month + m)
  let y := wrapInt64 (y + wrapInt64 (t.Year + Int.tdiv (wrapInt64 (months - 1)) 12))
  let m := Int.tmod (wrapInt64 (months - 1)) 12 + 1
  if m ≤ 0 then (wrapInt64 (y - 1), m + 12) else (y, m)

/-- Lines 62 to 72 of `AddYear`: the `(year, month, day)` that is passed to
`Date`. -/
def Time.addYearArgs (t : Time) (y m : Int) : Option (Int × Int × Int) :=
  let ym := t.addYearMonth y m
  let d := t.Day
  (DaysIn ym.1 [ym.2]).map fun maxDay => (ym.1, ym.2, if d > maxDay then maxDay else d)

/-- Lines 62 to 78 of `AddYear`: the path taken with at most two offsets. -/
def Time.addYearClamped (t : Time) (y m : Int) : Option Time :=
  (t.addYearArgs y m).map fun a =>
    Date a.1 a.2.1 a.2.2 t.Hour t.Minute (t.Second []) (t.Second [9]) t.Location

/-- Method `AddYear` (thru.go line 50). -/
def Time.AddYear (t : Time) (ymd : List Int) : Option Time :=
  match ymd with
  | [] => t.addYearClamped 1 0
  | [y] => t.addYearClamped y 0
  | [y, m] => t.addYearClamped y m
  | y :: m :: d :: _ => some ⟨t.time.AddDate y m d⟩

/-- Method `AddMonth` (thru.go line 82). -/
def Time.AddMonth (t : Time) (md : List Int) : Option Time :=
  match md with
  | [] => t.AddYear [0, 1]
  | [m] => t.AddYear [0, m]
  | _ :: d :: _ => t.AddYear [0, 1, d]

/-- Lines 111 to 122 of `Go`: the month selected by `md`. -/
def Time.goMonthSel (t : Time) (md : List Int) : Int :=
  match md with
  | [] => t.Month
  | m :: _ => if m > 0 then min m 12 else if m < 0 then max (13 + m) 1 else t.Month

/-- Lines 111 to 122 of `Go`: the raw day selected by `md`. -/
def Time.goDaySel (t : Time) (md : List Int) : Int :=
  match md with
  | _ :: d :: _ => d
  | _ => t.Day

/-- Lines 124 to 129 of `Go`: the day resolved against the month length. -/
def goDay (maxDay day : Int) : Int :=
  if day > 0 then min day maxDay else max (maxDay + day + 1) 1

/-- Lines 111 to 129 of `Go`: the `(year, month, day)` that is passed to
`Date`. -/
def Time.goArgs (t : Time) (y : Int) (md : List Int) : Option (Int × Int × Int) :=
  let year := wrapInt64 (t.Year + y)
  let month := t.goMonthSel md
  (DaysIn year [month]).map fun maxDay => (year, month, goDay maxDay (t.goDaySel md))

/-- Method `Go` (thru.go line 110). -/
def Time.Go (t : Time) (y : Int) (md : List Int) : Option Time :=
  (t.goArgs y md).map fun a =>
    Date a.1 a.2.1 a.2.2 t.Hour t.Minute (t.Second []) (t.Second [9]) t.Location

/-- Method `GoYear` (thru.go line 139). -/
def Time.GoYear (t : Time) (y : Int) (md : List Int) : Option Time :=
  t.Go (wrapInt64 (y - t.Year)) md

/-- Method `GoMonth` (thru.go line 143). -/
def Time.GoMonth (t : Time) (m : Int) (d : List Int) : Option Time :=
  match d with
  | [] => t.Go 0 [m, 0]
  | d0 :: _ => t.Go 0 [m, d0]

/-- Method `GoDay` (thru.go line 151). -/
def Time.GoDay (t : Time) (d : Int) : Option Time :=
  t.Go 0 [0, d]

/-- Method `Start` (thru.go line 158). -/
def Time.Start (t : Time) (ymd : List Int) : Time :=
  match ymd with
  | [] => Date t.Year 1 1 0 0 0 0 t.Location
  | [y] => Date (wrapInt64 (t.Year + y)) 1 1 0 0 0 0 t.Location
  | [y, m] => Date (wrapInt64 (t.Year + y)) (wrapInt64 (t.Month + m)) 1 0 0 0 0 t.Location
  | y :: m :: d :: _ =>
    Date (wrapInt64 (t.Year + y)) (wrapInt64 (t.Month + m)) (wrapInt64 (t.Day + d)) 0 0 0 0
      t.Location

/-- The weekday with Sunday moved from 0 to 7 (thru.go lines 194 to 197). -/
def Time.isoWeekday (t : Time) : Int :=
  if t.Weekday = 0 then 7 else t.Weekday

/-- The day argument of `StartWeek` (thru.go lines 199 to 202). -/
def Time.startWeekDay (t : Time) (n : List Int) : Int :=
  match n with
  | [] => t.Day - t.isoWeekday + 1
  | n0 :: _ => wrapInt64 (t.Day - t.isoWeekday + 1 + wrapInt64 (n0 * 7))

/-- Method `StartWeek` (thru.go line 193). -/
def Time.StartWeek (t : Time) (n : List Int) : Time :=
  Date t.Year t.Month (t.startWeekDay n) 0 0 0 0 t.Location

/-- The day argument of `EndWeek` (thru.go lines 251 to 254). -/
def Time.endWeekDay (t : Time) (n : List Int) : Int :=
  match n with
  | [] => t.Day + (7 - t.isoWeekday)
  | n0 :: _ => wrapInt64 (t.Day + (7 - t.isoWeekday) + wrapInt64 (n0 * 7))

/-- Method `EndWeek` (thru.go line 245). -/
def Time.EndWeek (t : Time) (n : List Int) : Time :=
  Date t.Year t.Month (t.endWeekDay n) 23 59 59 999999999 t.Location

/-- Method `DiffIn` (thru.go line 415), with exact rationals for `float64`.
The integer month difference needs no wrap: the years of two instants are
less than `6 * 10^11` apart. -/
def Time.DiffIn (t u : Time) (unit : String) : Option ℚ :=
  if unit = "y" then
    (t.Days).bind fun td => (u.Days).map fun ud =>
      ((t.Year - u.Year : Int) : ℚ) + (t.YearDay : ℚ) / (td : ℚ) - (u.YearDay : ℚ) / (ud : ℚ)
  else if unit = "M" then
    let months : Int := (t.Year - u.Year) * 12 + t.Month - u.Month
    let days : Int := t.Day - u.Day
    let months := if days < 0 then months - 1 else months
    (u.MonthDays).map fun md => (months : ℚ) + (days : ℚ) / (md : ℚ)
  else if unit = "d" then some (gotime.Hours (t.Sub u) / 24)
  else if unit = "h" then some (gotime.Hours (t.Sub u))
  else if unit = "m" then some (gotime.Minutes (t.Sub u))
  else if unit = "s" then some (gotime.Seconds (t.Sub u))
  else some 0

/-- Method `DiffAbsIn` (thru.go line 446). -/
def Time.DiffAbsIn (t u : Time) (unit : String) : Option ℚ :=
  (t.DiffIn u unit).map fun x => |x|

/-- Function `Unix` (thru.go line 40); `Local` is the location `time.Local` of
the process, in which `time.Unix` shows its result. -/
def Unix (Local : Location) (secs : Int) : Time :=
  if secs ≤ 9999999999 then ⟨gotime.Unix secs 0 Local⟩ else ⟨gotime.Unix 0 secs Local⟩

/-- Method `Unix` (thru.go line 332). -/
def Time.Unix (t : Time) (n : List Int) : Int :=
  match n with
  | [] => t.time.Unix
  | n0 :: _ =>
    if n0 == 0 then t.time.Unix
    else Int.tdiv t.time.UnixNano (10 ^ (19 - Clamp (wrapInt64 (n0 + 10)) 1 19).toNat)

/-- The words of the spec "repeatedly adding one month, `n` times": `AddMonth()`
applied `n` times in a row, starting from `t`. -/
def addMonthTimes : Nat → Time → Option Time
  | 0, t => some t
  | n + 1, t => (addMonthTimes n t).bind fun r => r.AddMonth []

/-! ### Sample instants -/

/-- 2023-01-15 00:00:00 UTC. -/
def jan15_2023 : Time := Date 2023 1 15 0 0 0 0 UTC

/-- 2023-01-31 00:00:00 UTC. -/
def jan31_2023 : Time := Date 2023 1 31 0 0 0 0 UTC

/-- 2023-03-01 00:00:00 UTC. -/
def mar01_2023 : Time := Date 2023 3 1 0 0 0 0 UTC

/-- 2023-06-15 12:30:15.5 at UTC+1. -/
def jun15_2023 : Time := Date 2023 6 15 12 30 15 500000000 (FixedZone 3600)

/-- 2023-02-01 00:00:00 UTC. -/
def feb01_2023 : Time := Date 2023 2 1 0 0 0 0 UTC

/-- 2023-12-31 00:00:00 UTC. -/
def dec31_2023 : Time := Date 2023 12 31 0 0 0 0 UTC

/-- 2023-12-15 12:30:15.5 at UTC+1. -/
def dec15_2023 : Time := Date 2023 12 15 12 30 15 500000000 (FixedZone 3600)

/-- 2023-11-14 22:13:20.123456789 UTC. -/
def nov14_2023 : Time := Date 2023 11 14 22 13 20 123456789 UTC

/-- America/New_York with its two transitions of 2023: UTC-5, daylight saving
time UTC-4 from 2023-03-12 07:00:00 UTC to 2023-11-05 06:00:00 UTC. -/
def newYork : Location := ⟨-18000, [(1678604400, -14400), (1699164000, -18000)]⟩

/-- America/Sao_Paulo with the start of its last daylight saving time: UTC-3,
and UTC-2 from 2018-11-04 03:00:00 UTC, which is local midnight. -/
def saoPaulo : Location := ⟨-10800, [(1541300400, -7200)]⟩

/-- 2023-03-08 12:00:00 in New York. -/
def mar08_2023_ny : Time := Date 2023 3 8 12 0 0 0 newYork

/-- 2023-11-05 01:30:00 in New York, the second time that day (UTC-5). -/
def nov05_2023_ny : Time := ⟨gotime.Unix 1699165800 0 newYork⟩

/-- 2018-10-04 00:30:00 in Sao Paulo. -/
def oct04_2018_sp : Time := Date 2018 10 4 0 30 0 0 saoPaulo

end thru

/-! ## The calendar of package `time` -/

namespace gotime

theorem daysSinceEpoch_decomp (b c f n : Int) (hc : 0 ≤ c ∧ c ≤ 3) (hf : 0 ≤ f ∧ f ≤ 24)
    (hn : 0 ≤ n ∧ n ≤ 3) :
    daysSinceEpoch (400 * b + 100 * c + 4 * f + n + 1)
      = 146097 * b + 36524 * c + 1461 * f + 365 * n := by
  unfold daysSinceEpoch
  omega

theorem isLeap_iff (y : Int) :
    isLeap y = true ↔ y % 4 = 0 ∧ (y % 100 ≠ 0 ∨ y % 400 = 0) := by
  simp [isLeap]

/-- Length of a year in days. -/
theorem daysSinceEpoch_succ (y : Int) :
    daysSinceEpoch (y + 1) = daysSinceEpoch y + (if isLeap y = true then 366 else 365) := by
  by_cases h : isLeap y = true
  · rw [if_pos h]
    rw [isLeap_iff] at h
    unfold daysSinceEpoch
    omega
  · rw [if_neg h]
    rw [isLeap_iff] at h
    unfold daysSinceEpoch
    omega

theorem daysSinceEpoch_mono (a b : Int) (h : a ≤ b) : daysSinceEpoch a ≤ daysSinceEpoch b := by
  unfold daysSinceEpoch
  omega

theorem yearOfDays_core (d b r c c1 d2 f d3 g n : Int)
    (hb : b = d / 146097) (hr : r = d - 146097 * b) (hc : c = r / 36524)
    (hc1 : c1 = c - c / 4) (hd2 : d2 = r - 36524 * c1) (hf : f = d2 / 1461)
    (hd3 : d3 = d2 - 1461 * f) (hg : g = d3 / 365) (hn : n = g - g / 4) :
    daysSinceEpoch (400 * b + 100 * c1 + 4 * f + n + 1) + (d3 - 365 * n) = d ∧
    0 ≤ d3 - 365 * n ∧
    d3 - 365 * n < (if isLeap (400 * b + 100 * c1 + 4 * f + n + 1) = true then 366 else 365) := by
  have hr0 : 0 ≤ r ∧ r < 146097 := by omega
  have hc0 : 0 ≤ c ∧ c ≤ 4 := by omega
  have hc10 : 0 ≤ c1 ∧ c1 ≤ 3 := by omega
  have hd20 : 0 ≤ d2 ∧ d2 ≤ 36524 := by omega
  have hf0 : 0 ≤ f ∧ f ≤ 24 := by omega
  have hd30 : 0 ≤ d3 ∧ d3 ≤ 1460 := by omega
  have hg0 : 0 ≤ g ∧ g ≤ 4 := by omega
  have hn0 : 0 ≤ n ∧ n ≤ 3 := by omega
  rw [daysSinceEpoch_decomp b c1 f n hc10 hf0 hn0]
  refine ⟨by omega, by omega, ?_⟩
  have hl : isLeap (400 * b + 100 * c1 + 4 * f + n + 1) = true ↔ (n = 3 ∧ (f < 24 ∨ c1 = 3)) := by
    rw [isLeap_iff]
    omega
  by_cases h : isLeap (400 * b + 100 * c1 + 4 * f + n + 1) = true
  · rw [if_pos h]
    rw [hl] at h
    omega
  · rw [if_neg h]
    rw [hl] at h
    omega

theorem yearOfDays_spec (d : Int) :
    daysSinceEpoch (yearOfDays d).1 + (yearOfDays d).2 = d ∧ 0 ≤ (yearOfDays d).2 ∧
    (yearOfDays d).2 < (if isLeap (yearOfDays d).1 = true then 366 else 365) :=
  yearOfDays_core d _ _ _ _ _ _ _ _ _ rfl rfl rfl rfl rfl rfl rfl rfl rfl

theorem yearOfDays_unique (y k : Int) (h0 : 0 ≤ k)
    (h1 : k < (if isLeap y = true then 366 else 365)) :
    yearOfDays (daysSinceEpoch y + k) = (y, k) := by
  obtain ⟨e, p0, p1⟩ := yearOfDays_spec (daysSinceEpoch y + k)
  have hy : (yearOfDays (daysSinceEpoch y + k)).1 = y := by
    rcases lt_trichotomy (yearOfDays (daysSinceEpoch y + k)).1 y with hlt | heq | hgt
    · have := daysSinceEpoch_mono ((yearOfDays (daysSinceEpoch y + k)).1 + 1) y (by omega)
      rw [daysSinceEpoch_succ] at this
      omega
    · exact heq
    · have := daysSinceEpoch_mono (y + 1) (yearOfDays (daysSinceEpoch y + k)).1 (by omega)
      rw [daysSinceEpoch_succ] at this
      omega
  have hk : (yearOfDays (daysSinceEpoch y + k)).2 = k := by
    rw [hy] at e
    omega
  exact Prod.ext hy hk

theorem daysBefore_vals :
    daysBefore (-1) = 0 ∧ daysBefore 0 = 0 ∧ daysBefore 1 = 31 ∧ daysBefore 2 = 59 ∧
    daysBefore 3 = 90 ∧ daysBefore 4 = 120 ∧ daysBefore 5 = 151 ∧ daysBefore 6 = 181 ∧
    daysBefore 7 = 212 ∧ daysBefore 8 = 243 ∧ daysBefore 9 = 273 ∧ daysBefore 10 = 304 ∧
    daysBefore 11 = 334 ∧ daysBefore 12 = 365 ∧ daysBefore 13 = 365 := by
  decide

theorem monthDayOfYday_common (yd : Int) (h0 : 0 ≤ yd) (h1 : yd < 365) :
    1 ≤ (monthDayOfYday false yd).1 ∧ (monthDayOfYday false yd).1 ≤ 12 ∧
    1 ≤ (monthDayOfYday false yd).2 ∧
    daysBefore ((monthDayOfYday false yd).1 - 1) + ((monthDayOfYday false yd).2 - 1) = yd ∧
    yd < daysBefore (monthDayOfYday false yd).1 := by
  obtain ⟨v0, v1, v2, v3, v4, v5, v6, v7, v8, v9, v10, v11, v12, v13, v14⟩ := daysBefore_vals
  simp only [monthDayOfYday, Bool.false_and, if_false, Bool.false_eq_true]
  have hk : 0 ≤ yd / 31 ∧ yd / 31 ≤ 11 := by omega
  generalize hq : yd / 31 = q at hk ⊢
  obtain ⟨hq0, hq11⟩ := hk
  interval_cases q <;> norm_num [v0, v1, v2, v3, v4, v5, v6, v7, v8, v9, v10, v11, v12, v13, v14] <;>
    split <;> norm_num [v0, v1, v2, v3, v4, v5, v6, v7, v8, v9, v10, v11, v12, v13, v14] <;> omega

theorem monthDayOfYday_leap (yd : Int) :
    monthDayOfYday true yd =
      if yd = 59 then (2, 29) else monthDayOfYday false (if yd > 59 then yd - 1 else yd) := by
  simp [monthDayOfYday]

theorem monthDayOfYday_spec (leap : Bool) (yd : Int) (h0 : 0 ≤ yd)
    (h1 : yd < (if leap = true then 366 else 365)) :
    1 ≤ (monthDayOfYday leap yd).1 ∧ (monthDayOfYday leap yd).1 ≤ 12 ∧
    1 ≤ (monthDayOfYday leap yd).2 ∧
    (monthDayOfYday leap yd).2 ≤ daysInMonth leap (monthDayOfYday leap yd).1 ∧
    daysBeforeMonth leap (monthDayOfYday leap yd).1 + ((monthDayOfYday leap yd).2 - 1) = yd := by
  obtain ⟨v0, v1, v2, v3, v4, v5, v6, v7, v8, v9, v10, v11, v12, v13, v14⟩ := daysBefore_vals
  cases leap
  · simp only [Bool.false_eq_true, if_false] at h1
    obtain ⟨a, b, c, d, e⟩ := monthDayOfYday_common yd h0 h1
    simp only [daysBeforeMonth, daysInMonth, Bool.false_and, if_false, Bool.false_eq_true, and_false]
    refine ⟨a, b, c, by omega, by omega⟩
  · simp only [if_true] at h1
    rw [monthDayOfYday_leap]
    by_cases h59 : yd = 59
    · rw [if_pos h59]
      simp [daysBeforeMonth, daysInMonth, v2, h59]
    · rw [if_neg h59]
      by_cases hgt : yd > 59
      · rw [if_pos hgt]
        obtain ⟨a, b, c, d, e⟩ := monthDayOfYday_common (yd - 1) (by omega) (by omega)
        generalize (monthDayOfYday false (yd - 1)).1 = m at a b c d e ⊢
        generalize (monthDayOfYday false (yd - 1)).2 = dd at a b c d e ⊢
        simp only [daysBeforeMonth, daysInMonth, Bool.true_and]
        interval_cases m <;>
          norm_num [v0, v1, v2, v3, v4, v5, v6, v7, v8, v9, v10, v11, v12, v13, v14] at d e ⊢ <;> omega
      · rw [if_neg hgt]
        obtain ⟨a, b, c, d, e⟩ := monthDayOfYday_common yd (by omega) (by omega)
        generalize (monthDayOfYday false yd).1 = m at a b c d e ⊢
        generalize (monthDayOfYday false yd).2 = dd at a b c d e ⊢
        simp only [daysBeforeMonth, daysInMonth, Bool.true_and]
        interval_cases m <;>
          norm_num [v0, v1, v2, v3, v4, v5, v6, v7, v8, v9, v10, v11, v12, v13, v14] at d e ⊢ <;> omega

theorem month_table (leap : Bool) (m : Int) (hm : 1 ≤ m ∧ m ≤ 12) :
    ∃ e : Int, (leap = true ∧ e = 1 ∨ leap = false ∧ e = 0) ∧
      ((m = 1 ∧ daysBeforeMonth leap m = 0 ∧ daysInMonth leap m = 31) ∨
       (m = 2 ∧ daysBeforeMonth leap m = 31 ∧ daysInMonth leap m = 28 + e) ∨
       (m = 3 ∧ daysBeforeMonth leap m = 59 + e ∧ daysInMonth leap m = 31) ∨
       (m = 4 ∧ daysBeforeMonth leap m = 90 + e ∧ daysInMonth leap m = 30) ∨
       (m = 5 ∧ daysBeforeMonth leap m = 120 + e ∧ daysInMonth leap m = 31) ∨
       (m = 6 ∧ daysBeforeMonth leap m = 151 + e ∧ daysInMonth leap m = 30) ∨
       (m = 7 ∧ daysBeforeMonth leap m = 181 + e ∧ daysInMonth leap m = 31) ∨
       (m = 8 ∧ daysBeforeMonth leap m = 212 + e ∧ daysInMonth leap m = 31) ∨
       (m = 9 ∧ daysBeforeMonth leap m = 243 + e ∧ daysInMonth leap m = 30) ∨
       (m = 10 ∧ daysBeforeMonth leap m = 273 + e ∧ daysInMonth leap m = 31) ∨
       (m = 11 ∧ daysBeforeMonth leap m = 304 + e ∧ daysInMonth leap m = 30) ∨
       (m = 12 ∧ daysBeforeMonth leap m = 334 + e ∧ daysInMonth leap m = 31)) := by
  obtain ⟨v0, v1, v2, v3, v4, v5, v6, v7, v8, v9, v10, v11, v12, v13, v14⟩ := daysBefore_vals
  obtain ⟨hm1, hm12⟩ := hm
  cases leap
  · refine ⟨0, Or.inr ⟨rfl, rfl⟩, ?_⟩
    interval_cases m <;>
      norm_num [daysBeforeMonth, daysInMonth, v0, v1, v2, v3, v4, v5, v6, v7, v8, v9, v10, v11, v12, v13, v14]
  · refine ⟨1, Or.inl ⟨rfl, rfl⟩, ?_⟩
    interval_cases m <;>
      norm_num [daysBeforeMonth, daysInMonth, v0, v1, v2, v3, v4, v5, v6, v7, v8, v9, v10, v11, v12, v13, v14]

theorem monthDayOfYday_unique (leap : Bool) (m d : Int) (hm : 1 ≤ m ∧ m ≤ 12)
    (hd : 1 ≤ d ∧ d ≤ daysInMonth leap m) :
    monthDayOfYday leap (daysBeforeMonth leap m + (d - 1)) = (m, d) := by
  obtain ⟨e, he, ht⟩ := month_table leap m hm
  have hyd : 0 ≤ daysBeforeMonth leap m + (d - 1) ∧
      daysBeforeMonth leap m + (d - 1) < (if leap = true then 366 else 365) := by
    rcases he with ⟨hl, he⟩ | ⟨hl, he⟩ <;> subst hl <;> simp only [if_true, if_false, Bool.false_eq_true] <;> omega
  obtain ⟨a, b, c, f, g⟩ := monthDayOfYday_spec leap _ hyd.1 hyd.2
  generalize (monthDayOfYday leap (daysBeforeMonth leap m + (d - 1))) = p at a b c f g ⊢
  obtain ⟨pm, pd⟩ := p
  simp only at a b c f g
  obtain ⟨e2, he2, ht2⟩ := month_table leap pm ⟨a, b⟩
  have hee : e2 = e := by
    rcases he with ⟨hl, he⟩ | ⟨hl, he⟩ <;> rcases he2 with ⟨hl2, he2⟩ | ⟨hl2, he2⟩ <;> simp_all
  have he01 : e = 0 ∨ e = 1 := by
    rcases he with ⟨_, he⟩ | ⟨_, he⟩ <;> omega
  have : pm = m := by
    clear hyd he he2 hm a b
    rcases he01 with h | h <;> subst h <;> subst hee <;> omega
  subst this
  have : pd = d := by omega
  subst this
  rfl

/-! ### 64-bit wrap-around and zone lookup -/

theorem wrapInt64_of_range (x : Int)
    (h : -9223372036854775808 ≤ x ∧ x ≤ 9223372036854775807) : wrapInt64 x = x := by
  unfold wrapInt64
  omega

theorem wrapInt64_range (x : Int) :
    -9223372036854775808 ≤ wrapInt64 x ∧ wrapInt64 x ≤ 9223372036854775807 := by
  unfold wrapInt64
  omega

/-- A location without transitions has its one offset at every second. -/
theorem lookup_fixed (l : Location) (h : l.trans = []) (sec : Int) :
    l.lookup sec = (l.offset, alpha, omegaSec) := by
  simp only [Location.lookup, h, lookupFrom]

/-- Zone resolution in a location without transitions subtracts the offset. -/
theorem resolveZone_fixed (l : Location) (h : l.Fixed) (unix : Int)
    (hu : -9223372036854000000 ≤ unix ∧ unix ≤ 9223372036854000000) :
    resolveZone l unix = unix - l.offset := by
  obtain ⟨ht, h1, h2⟩ := h
  simp only [resolveZone, lookup_fixed l ht]
  have e : wrapInt64 (unix - l.offset) = unix - l.offset := wrapInt64_of_range _ (by omega)
  by_cases h0 : l.offset = 0
  · simp [h0]
  · simp only [ne_eq, h0, not_false_eq_true, if_true, e, ite_self]

/-! ### The instant built by `Date` and its fields -/

/-- From the absolute zero year on, as long as the years since then fit 64
bits, the day count of package `time` is the day count from 0001-01-01 moved
by the days between the two epochs. -/
theorem daysSinceZero_eq (year : Int)
    (h : -292277022399 ≤ year ∧ year ≤ 1000000000000000000) :
    daysSinceZero year = daysSinceEpoch year + 106751990353932 := by
  have e : (year - absoluteZeroYear) % 18446744073709551616 = year + 292277022399 := by
    unfold absoluteZeroYear
    omega
  simp only [daysSinceZero, daysSinceEpoch, e]
  omega

/-- Seconds of a wall-clock time whose clock fields are in range and whose
date fields are far from the 64-bit bounds: nothing wraps. -/
theorem dateUnix_eq (year month day hour min sec nsec : Int)
    (hy : -250000000000 ≤ year ∧ year ≤ 250000000000)
    (hm : -200000000000 ≤ month ∧ month ≤ 200000000000)
    (hd : -1000000000000 ≤ day ∧ day ≤ 1000000000000)
    (hh : 0 ≤ hour ∧ hour < 24) (hmi : 0 ≤ min ∧ min < 60) (hs : 0 ≤ sec ∧ sec < 60)
    (hn : 0 ≤ nsec ∧ nsec < 1000000000) :
    dateUnix year month day hour min sec nsec =
      (daysSinceEpoch (year + (month - 1) / 12) +
        daysBeforeMonth (isLeap (year + (month - 1) / 12)) ((month - 1) % 12 + 1) + (day - 1)) * 86400
        + hour * 3600 + min * 60 + sec - unixToAbs ∧
    -8700000000000000000 ≤ dateUnix year month day hour min sec nsec ∧
    dateUnix year month day hour min sec nsec ≤ 8700000000000000000 := by
  have w1 : wrapInt64 (month - 1) = month - 1 := wrapInt64_of_range _ (by omega)
  have w2 : wrapInt64 (year + (month - 1) / 12) = year + (month - 1) / 12 :=
    wrapInt64_of_range _ (by omega)
  have w3 : wrapInt64 (sec + nsec / 1000000000) = sec := by
    rw [wrapInt64_of_range _ (by omega)]; omega
  have w4 : wrapInt64 (min + sec / 60) = min := by
    rw [wrapInt64_of_range _ (by omega)]; omega
  have w5 : wrapInt64 (hour + min / 60) = hour := by
    rw [wrapInt64_of_range _ (by omega)]; omega
  have w6 : wrapInt64 (day + hour / 24) = day := by
    rw [wrapInt64_of_range _ (by omega)]; omega
  have hm12 : 0 ≤ (month - 1) % 12 + 1 - 1 ∧ (month - 1) % 12 + 1 - 1 ≤ 11 := by omega
  have hb : 0 ≤ daysBeforeMonth (isLeap (year + (month - 1) / 12)) ((month - 1) % 12 + 1) ∧
      daysBeforeMonth (isLeap (year + (month - 1) / 12)) ((month - 1) % 12 + 1) ≤ 335 := by
    obtain ⟨e, he, ht⟩ := month_table (isLeap (year + (month - 1) / 12)) ((month - 1) % 12 + 1)
      (by omega)
    omega
  have hyy : -267000000000 ≤ year + (month - 1) / 12 ∧ year + (month - 1) / 12 ≤ 267000000000 := by
    omega
  have hdse : -97600000000000 ≤ daysSinceEpoch (year + (month - 1) / 12) ∧
      daysSinceEpoch (year + (month - 1) / 12) ≤ 97600000000000 := by
    unfold daysSinceEpoch
    omega
  simp only [dateUnix, norm, w1, w2, w3, w4, w5, w6, unixToAbs, yearOneToAbsolute,
    daysSinceZero_eq (year + (month - 1) / 12) (by omega)]
  generalize daysSinceEpoch (year + (month - 1) / 12) = A at hdse ⊢
  generalize daysBeforeMonth (isLeap (year + (month - 1) / 12)) ((month - 1) % 12 + 1) = B at hb ⊢
  have e1 : hour % 24 = hour := by omega
  have e2 : min % 60 = min := by omega
  have e3 : sec % 60 = sec := by omega
  rw [e1, e2, e3]
  have hr : -8700000000000000000 ≤ (A + B + (day - 1)) * 86400 + hour * 3600 + min * 60 + sec
        - 62135596800 ∧
      (A + B + (day - 1)) * 86400 + hour * 3600 + min * 60 + sec - 62135596800
        ≤ 8700000000000000000 := by omega
  rw [wrapInt64_of_range _ (by omega)]
  omega

/-- Nanoseconds of the instant built by `Date` in a fixed location from clock
fields in range and date fields far from the 64-bit bounds. -/
theorem ns_Date (year month day hour min sec nsec : Int) (loc : Location) (hz : loc.Fixed)
    (hy : -250000000000 ≤ year ∧ year ≤ 250000000000)
    (hm : -200000000000 ≤ month ∧ month ≤ 200000000000)
    (hd : -1000000000000 ≤ day ∧ day ≤ 1000000000000)
    (hh : 0 ≤ hour ∧ hour < 24) (hmi : 0 ≤ min ∧ min < 60) (hs : 0 ≤ sec ∧ sec < 60)
    (hn : 0 ≤ nsec ∧ nsec < 1000000000) :
    (Date year month day hour min sec nsec loc).ns =
      ((daysSinceEpoch (year + (month - 1) / 12) +
        daysBeforeMonth (isLeap (year + (month - 1) / 12)) ((month - 1) % 12 + 1) + (day - 1)) * 86400
        + hour * 3600 + min * 60 + sec - unixToAbs - loc.offset) * 1000000000 + nsec := by
  obtain ⟨e, lo, hi⟩ := dateUnix_eq year month day hour min sec nsec hy hm hd hh hmi hs hn
  have r := resolveZone_fixed loc hz (dateUnix year month day hour min sec nsec) (by omega)
  simp only [Date]
  rw [r, e]
  omega

theorem loc_Date (year month day hour min sec nsec : Int) (loc : Location) :
    (Date year month day hour min sec nsec loc).loc = loc := rfl

/-- Wall-clock seconds of an instant in a fixed location whose Unix second is
far from the 64-bit bounds: the unsigned count does not wrap. -/
theorem abs_of_fixed (t : Time) (hz : t.loc.Fixed)
    (hr : -8800000000000000000 ≤ t.unixSec ∧ t.unixSec ≤ 8800000000000000000) :
    t.abs = t.unixSec + t.loc.offset + unixToAbs := by
  obtain ⟨ht, h1, h2⟩ := hz
  simp only [Time.abs, lookup_fixed t.loc ht, unixToAbs, yearOneToAbsolute]
  omega

theorem abs_Date (year month day hour min sec nsec : Int) (loc : Location) (hz : loc.Fixed)
    (hy : -250000000000 ≤ year ∧ year ≤ 250000000000)
    (hm : -200000000000 ≤ month ∧ month ≤ 200000000000)
    (hd : -1000000000000 ≤ day ∧ day ≤ 1000000000000)
    (hh : 0 ≤ hour ∧ hour < 24) (hmi : 0 ≤ min ∧ min < 60) (hs : 0 ≤ sec ∧ sec < 60)
    (hn : 0 ≤ nsec ∧ nsec < 1000000000) :
    (Date year month day hour min sec nsec loc).abs =
      (daysSinceEpoch (year + (month - 1) / 12) +
        daysBeforeMonth (isLeap (year + (month - 1) / 12)) ((month - 1) % 12 + 1) + (day - 1)) * 86400
      + hour * 3600 + min * 60 + sec := by
  obtain ⟨e, lo, hi⟩ := dateUnix_eq year month day hour min sec nsec hy hm hd hh hmi hs hn
  have hns := ns_Date year month day hour min sec nsec loc hz hy hm hd hh hmi hs hn
  rw [e] at lo hi
  have hu : (Date year month day hour min sec nsec loc).unixSec =
      (daysSinceEpoch (year + (month - 1) / 12) +
        daysBeforeMonth (isLeap (year + (month - 1) / 12)) ((month - 1) % 12 + 1) + (day - 1)) * 86400
        + hour * 3600 + min * 60 + sec - unixToAbs - loc.offset := by
    simp only [Time.unixSec, hns]
    omega
  have hz2 : (Date year month day hour min sec nsec loc).loc.Fixed := hz
  obtain ⟨_, o1, o2⟩ := hz
  rw [abs_of_fixed _ hz2 (by rw [hu]; omega), hu, loc_Date]
  omega

theorem nanosecond_Date (year month day hour min sec nsec : Int) (loc : Location) :
    (Date year month day hour min sec nsec loc).Nanosecond = nsec % 1000000000 := by
  simp only [Time.Nanosecond, Date]
  omega

/-- The clock fields of an instant are in range. -/
theorem clock_range (t : Time) :
    0 ≤ t.Hour ∧ t.Hour < 24 ∧ 0 ≤ t.Minute ∧ t.Minute < 60 ∧ 0 ≤ t.Second ∧ t.Second < 60 ∧
    0 ≤ t.Nanosecond ∧ t.Nanosecond < 1000000000 := by
  simp only [Time.Hour, Time.Minute, Time.Second, Time.Nanosecond]
  omega

/-- The wall clock seconds of an instant, rebuilt from its day number and clock. -/
theorem abs_eq_clock (t : Time) :
    t.abs = t.absDays * 86400 + t.Hour * 3600 + t.Minute * 60 + t.Second := by
  simp only [Time.Hour, Time.Minute, Time.Second, Time.absDays]
  omega

/-- The date fields of an instant are in range and give back its day number. -/
theorem date_range (t : Time) :
    1 ≤ t.Month ∧ t.Month ≤ 12 ∧ 1 ≤ t.Day ∧ t.Day ≤ daysInMonth (isLeap t.Year) t.Month ∧
    t.absDays = daysSinceEpoch t.Year + daysBeforeMonth (isLeap t.Year) t.Month + (t.Day - 1) := by
  obtain ⟨e, h0, h1⟩ := yearOfDays_spec t.absDays
  obtain ⟨a, b, c, d, f⟩ := monthDayOfYday_spec (isLeap t.Year) t.yday h0 h1
  refine ⟨a, b, c, d, ?_⟩
  simp only [Time.Month, Time.Day]
  simp only [Time.Year, Time.yday] at f ⊢
  omega

/-- The year of every instant is within the range package `time` can show. -/
theorem year_range (t : Time) : -292277022399 ≤ t.Year ∧ t.Year ≤ 292277026854 := by
  obtain ⟨a, b, c, d, e⟩ := date_range t
  obtain ⟨x, hx, ht⟩ := month_table (isLeap t.Year) t.Month ⟨a, b⟩
  have habs : -9223371966579724800 ≤ t.abs ∧ t.abs < 9223372107129826816 := by
    simp only [Time.abs, yearOneToAbsolute]
    omega
  have hd : -106751990353932 ≤ t.absDays ∧ t.absDays ≤ 106751991980669 := by
    simp only [Time.absDays]
    omega
  have lo : daysSinceEpoch (-292277022400) = -106751990354298 := by decide
  have hi : daysSinceEpoch 292277026855 = 106751991980722 := by decide
  constructor
  · by_contra hcon
    have := daysSinceEpoch_mono t.Year (-292277022400) (by omega)
    omega
  · by_contra hcon
    have := daysSinceEpoch_mono 292277026855 t.Year (by omega)
    omega

/-- Wall-clock seconds of a valid instant in a fixed location whose year is
small: the unsigned count does not wrap. -/
theorem abs_of_valid (t : Time) (hz : t.loc.Fixed) (hv : t.Valid) (hy : small t.Year) :
    t.abs = t.unixSec + t.loc.offset + unixToAbs := by
  obtain ⟨a, b, c, d, e⟩ := date_range t
  obtain ⟨x, hx, ht⟩ := month_table (isLeap t.Year) t.Month ⟨a, b⟩
  obtain ⟨c0, c1, c2, c3, c4, c5, _⟩ := clock_range t
  have hc := abs_eq_clock t
  have hdse : -36600000000000 ≤ daysSinceEpoch t.Year ∧ daysSinceEpoch t.Year ≤ 36600000000000 := by
    unfold daysSinceEpoch
    omega
  have habs : -3200000000000000000 ≤ t.abs ∧ t.abs ≤ 3200000000000000000 := by
    rw [hc, e]
    omega
  obtain ⟨ht0, h1, h2⟩ := hz
  simp only [Time.abs, lookup_fixed t.loc ht0, unixToAbs, yearOneToAbsolute] at habs ⊢
  omega

/-- Nanoseconds of an instant, rebuilt from its wall-clock seconds. -/
theorem ns_eq_abs (t : Time) (hz : t.loc.Fixed) (hv : t.Valid) (hy : small t.Year) :
    t.ns = (t.abs - unixToAbs - t.loc.offset) * 1000000000 + t.Nanosecond := by
  rw [abs_of_valid t hz hv hy]
  simp only [Time.unixSec, Time.Nanosecond]
  omega

/-- An instant whose day number is that of a valid calendar date has that date. -/
theorem date_of_absDays (t : Time) (y m d : Int) (hm : 1 ≤ m ∧ m ≤ 12)
    (hd : 1 ≤ d ∧ d ≤ daysInMonth (isLeap y) m)
    (h : t.absDays = daysSinceEpoch y + daysBeforeMonth (isLeap y) m + (d - 1)) :
    t.Year = y ∧ t.Month = m ∧ t.Day = d := by
  have hk : 0 ≤ daysBeforeMonth (isLeap y) m + (d - 1) ∧
      daysBeforeMonth (isLeap y) m + (d - 1) < (if isLeap y = true then 366 else 365) := by
    obtain ⟨e, he, ht⟩ := month_table (isLeap y) m hm
    rcases he with ⟨hl, he⟩ | ⟨hl, he⟩ <;> rw [hl] at ht hd ⊢ <;>
      simp only [if_true, if_false, Bool.false_eq_true] <;> omega
  have hy : yearOfDays t.absDays = (y, daysBeforeMonth (isLeap y) m + (d - 1)) := by
    rw [h, add_assoc]
    exact yearOfDays_unique y _ hk.1 hk.2
  have hmd := monthDayOfYday_unique (isLeap y) m d hm hd
  simp only [Time.Year, Time.Month, Time.Day, Time.yday, hy, hmd, and_self]

/-- Day number of the instant built by `Date`: the day is counted from the
first of the normalised month. -/
theorem absDays_Date (year month day hour min sec nsec : Int) (loc : Location) (hz : loc.Fixed)
    (hy : -250000000000 ≤ year ∧ year ≤ 250000000000)
    (hm : -200000000000 ≤ month ∧ month ≤ 200000000000)
    (hd : -1000000000000 ≤ day ∧ day ≤ 1000000000000)
    (hh : 0 ≤ hour ∧ hour < 24) (hmi : 0 ≤ min ∧ min < 60) (hs : 0 ≤ sec ∧ sec < 60)
    (hn : 0 ≤ nsec ∧ nsec < 1000000000) :
    (Date year month day hour min sec nsec loc).absDays =
      daysSinceEpoch (year + (month - 1) / 12) +
        daysBeforeMonth (isLeap (year + (month - 1) / 12)) ((month - 1) % 12 + 1) + (day - 1) := by
  simp only [Time.absDays, abs_Date year month day hour min sec nsec loc hz hy hm hd hh hmi hs hn]
  generalize daysSinceEpoch (year + (month - 1) / 12) = A
  generalize daysBeforeMonth (isLeap (year + (month - 1) / 12)) ((month - 1) % 12 + 1) = B
  omega

/-- Clock fields of the instant built by `Date` from clock fields in range. -/
theorem clock_Date (year month day hour min sec nsec : Int) (loc : Location) (hz : loc.Fixed)
    (hy : -250000000000 ≤ year ∧ year ≤ 250000000000)
    (hm : -200000000000 ≤ month ∧ month ≤ 200000000000)
    (hd : -1000000000000 ≤ day ∧ day ≤ 1000000000000)
    (hh : 0 ≤ hour ∧ hour < 24) (hmi : 0 ≤ min ∧ min < 60) (hs : 0 ≤ sec ∧ sec < 60)
    (hn : 0 ≤ nsec ∧ nsec < 1000000000) :
    (Date year month day hour min sec nsec loc).Hour = hour ∧
    (Date year month day hour min sec nsec loc).Minute = min ∧
    (Date year month day hour min sec nsec loc).Second = sec ∧
    (Date year month day hour min sec nsec loc).Nanosecond = nsec := by
  simp only [Time.Hour, Time.Minute, Time.Second, nanosecond_Date,
    abs_Date year month day hour min sec nsec loc hz hy hm hd hh hmi hs hn]
  generalize daysSinceEpoch (year + (month - 1) / 12) = A
  generalize daysBeforeMonth (isLeap (year + (month - 1) / 12)) ((month - 1) % 12 + 1) = B
  omega

/-- Date fields of the instant built by `Date` from fields in range. -/
theorem date_Date (year month day hour min sec nsec : Int) (loc : Location) (hz : loc.Fixed)
    (hy : -250000000000 ≤ year ∧ year ≤ 250000000000)
    (hm : 1 ≤ month ∧ month ≤ 12) (hd : 1 ≤ day ∧ day ≤ daysInMonth (isLeap year) month)
    (hh : 0 ≤ hour ∧ hour < 24) (hmi : 0 ≤ min ∧ min < 60) (hs : 0 ≤ sec ∧ sec < 60)
    (hn : 0 ≤ nsec ∧ nsec < 1000000000) :
    (Date year month day hour min sec nsec loc).Year = year ∧
    (Date year month day hour min sec nsec loc).Month = month ∧
    (Date year month day hour min sec nsec loc).Day = day := by
  apply date_of_absDays _ year month day hm hd
  have hl : daysInMonth (isLeap year) month ≤ 31 := by
    obtain ⟨e, he, ht⟩ := month_table (isLeap year) month hm
    omega
  rw [absDays_Date year month day hour min sec nsec loc hz hy (by omega) (by omega) hh hmi hs hn]
  have e1 : (month - 1) / 12 = 0 := by omega
  have e2 : (month - 1) % 12 + 1 = month := by omega
  rw [e1, e2, add_zero]

end gotime

/-! ## Lemmas on package `thru` -/

namespace thru

open gotime (Location UTC FixedZone wrapInt64 small)

/-! ### Go's truncating division against floor division -/

theorem tdiv_tmod_of_nonneg (a b : Int) (ha : 0 ≤ a) (hb : 0 < b) :
    Int.tdiv a b = a / b ∧ Int.tmod a b = a % b :=
  ⟨Int.tdiv_eq_ediv ha (le_of_lt hb), Int.tmod_eq_emod ha (le_of_lt hb)⟩

theorem tdiv_tmod_of_neg (a b : Int) (ha : a < 0) (hb : 0 < b) :
    Int.tdiv a b = -((-a) / b) ∧ Int.tmod a b = -((-a) % b) := by
  have h1 : Int.tdiv a b = -((-a) / b) := by
    have := Int.neg_tdiv (-a) b
    rw [neg_neg] at this
    rw [this, Int.tdiv_eq_ediv (by omega) (le_of_lt hb)]
  refine ⟨h1, ?_⟩
  have h2 := Int.tmod_add_tdiv a b
  have h3 := Int.emod_add_ediv (-a) b
  rw [h1] at h2
  have h4 : b * -(-a / b) = -(b * (-a / b)) := by ring
  rw [h4] at h2
  omega

theorem tmod_eq_zero_iff (a b : Int) (hb : 0 < b) : Int.tmod a b = 0 ↔ a % b = 0 := by
  rcases lt_or_le a 0 with ha | ha
  · rw [(tdiv_tmod_of_neg a b ha hb).2]
    constructor
    · intro h
      have h1 : (-a) % b = 0 := by omega
      have h2 : b ∣ -a := Int.dvd_of_emod_eq_zero h1
      exact Int.emod_eq_zero_of_dvd ((Int.dvd_neg).mp h2)
    · intro h
      have h2 : b ∣ a := Int.dvd_of_emod_eq_zero h
      have h1 : (-a) % b = 0 := Int.emod_eq_zero_of_dvd ((Int.dvd_neg).mpr h2)
      omega
  · rw [(tdiv_tmod_of_nonneg a b ha hb).2]

theorem IsLeapYear_eq (y : Int) : IsLeapYear y = gotime.isLeap y := by
  simp only [IsLeapYear, gotime.isLeap]
  have h4 := tmod_eq_zero_iff y 4 (by decide)
  have h100 := tmod_eq_zero_iff y 100 (by decide)
  have h400 := tmod_eq_zero_iff y 400 (by decide)
  rw [Bool.eq_iff_iff]
  simp only [Bool.and_eq_true, Bool.or_eq_true, beq_iff_eq, bne_iff_ne, ne_eq, h4, h100, h400]

/-- On the months 1..12 the table lookup of `DaysIn` succeeds and is the length
of the month in the calendar of package `time`. -/
theorem DaysIn_month (y m : Int) (hm : 1 ≤ m ∧ m ≤ 12) :
    DaysIn y [m] = some (gotime.daysInMonth (gotime.isLeap y) m) := by
  obtain ⟨v0, v1, v2, v3, v4, v5, v6, v7, v8, v9, v10, v11, v12, v13, v14⟩ := gotime.daysBefore_vals
  obtain ⟨h1, h12⟩ := hm
  simp only [DaysIn, IsLeapYear_eq, gotime.daysInMonth]
  cases gotime.isLeap y <;> interval_cases m <;>
    simp [maxDays, v0, v1, v2, v3, v4, v5, v6, v7, v8, v9, v10, v11, v12, v13, v14]

/-- Length of a month is between 28 and 31. -/
theorem daysInMonth_range (leap : Bool) (m : Int) (hm : 1 ≤ m ∧ m ≤ 12) :
    28 ≤ gotime.daysInMonth leap m ∧ gotime.daysInMonth leap m ≤ 31 := by
  obtain ⟨e, he, ht⟩ := gotime.month_table leap m hm
  omega

theorem Second_nine (t : Time) : t.Second [9] = t.time.Nanosecond := by
  simp [Time.Second, Clamp]

/-- The fields of an instant built by `Date` in a fixed location from fields
that are in range. -/
theorem Date_fields (year month day hour min sec nsec : Int) (loc : Location) (hz : loc.Fixed)
    (hy : -250000000000 ≤ year ∧ year ≤ 250000000000)
    (hm : 1 ≤ month ∧ month ≤ 12)
    (hd : 1 ≤ day ∧ day ≤ gotime.daysInMonth (gotime.isLeap year) month)
    (hh : 0 ≤ hour ∧ hour < 24) (hmi : 0 ≤ min ∧ min < 60) (hs : 0 ≤ sec ∧ sec < 60)
    (hn : 0 ≤ nsec ∧ nsec < 1000000000) :
    (Date year month day hour min sec nsec loc).Year = year ∧
    (Date year month day hour min sec nsec loc).Month = month ∧
    (Date year month day hour min sec nsec loc).Day = day ∧
    (Date year month day hour min sec nsec loc).Hour = hour ∧
    (Date year month day hour min sec nsec loc).Minute = min ∧
    (Date year month day hour min sec nsec loc).Second [] = sec ∧
    (Date year month day hour min sec nsec loc).Second [9] = nsec := by
  have hl := daysInMonth_range (gotime.isLeap year) month hm
  obtain ⟨a, b, c⟩ := gotime.date_Date year month day hour min sec nsec loc hz hy hm hd hh hmi hs hn
  obtain ⟨d, e, f, g⟩ := gotime.clock_Date year month day hour min sec nsec loc hz hy
    (by omega) (by omega) hh hmi hs hn
  rw [Second_nine]
  exact ⟨a, b, c, d, e, f, g⟩

/-- The fields of any instant are in range. -/
theorem fields_range (t : Time) :
    1 ≤ t.Month ∧ t.Month ≤ 12 ∧ 1 ≤ t.Day ∧
    t.Day ≤ gotime.daysInMonth (gotime.isLeap t.Year) t.Month ∧
    (0 ≤ t.Hour ∧ t.Hour < 24) ∧ (0 ≤ t.Minute ∧ t.Minute < 60) ∧
    (0 ≤ t.Second [] ∧ t.Second [] < 60) ∧ (0 ≤ t.Second [9] ∧ t.Second [9] < 1000000000) := by
  obtain ⟨a, b, c, d, _⟩ := gotime.date_range t.time
  obtain ⟨e, f, g, h, i, j, k, l⟩ := gotime.clock_range t.time
  rw [Second_nine]
  exact ⟨a, b, c, d, ⟨e, f⟩, ⟨g, h⟩, ⟨i, j⟩, ⟨k, l⟩⟩

/-- The day of any instant is at most 31. -/
theorem day_le (t : Time) : t.Day ≤ 31 := by
  obtain ⟨a, b, _, d, _⟩ := fields_range t
  have := daysInMonth_range (gotime.isLeap t.Year) t.Month ⟨a, b⟩
  omega

/-- The year of any instant is within the range package `time` can show. -/
theorem Year_range (t : Time) : -292277022399 ≤ t.Year ∧ t.Year ≤ 292277026854 :=
  gotime.year_range t.time

/-- The remainder of Go by 12 plus one, moved up by 12 when it is not
positive, is a month. -/
theorem tmod_month (x : Int) :
    (Int.tmod x 12 + 1 ≤ 0 → 1 ≤ Int.tmod x 12 + 1 + 12 ∧ Int.tmod x 12 + 1 + 12 ≤ 12) ∧
    (¬ Int.tmod x 12 + 1 ≤ 0 → 1 ≤ Int.tmod x 12 + 1 ∧ Int.tmod x 12 + 1 ≤ 12) := by
  rcases lt_or_le x 0 with h | h
  · rw [(tdiv_tmod_of_neg x 12 h (by decide)).2]
    omega
  · rw [(tdiv_tmod_of_nonneg x 12 h (by decide)).2]
    omega

/-- The month `AddYear` computes is a month, whatever wraps before. -/
theorem addYearMonth_range (t : Time) (y m : Int) :
    1 ≤ (t.addYearMonth y m).2 ∧ (t.addYearMonth y m).2 ≤ 12 := by
  obtain ⟨h1, h2⟩ := tmod_month (wrapInt64 (wrapInt64 (t.Month + m) - 1))
  simp only [Time.addYearMonth]
  split
  · rename_i h
    exact h1 h
  · rename_i h
    exact h2 h

/-- The carry of `AddYear` written with floor division, for offsets that keep
lines 62 to 67 within 64 bits. -/
theorem addYearMonth_floor (t : Time) (y m : Int)
    (hy : -8000000000000000000 ≤ y ∧ y ≤ 8000000000000000000)
    (hm : -9000000000000000000 ≤ m ∧ m ≤ 9000000000000000000) :
    t.addYearMonth y m =
      (t.Year + y + (t.Month + m - 1) / 12, (t.Month + m - 1) % 12 + 1) := by
  obtain ⟨a, b, _⟩ := fields_range t
  obtain ⟨y0, y1⟩ := Year_range t
  have w1 : wrapInt64 (t.Month + m) = t.Month + m := gotime.wrapInt64_of_range _ (by omega)
  have w2 : wrapInt64 (t.Month + m - 1) = t.Month + m - 1 := gotime.wrapInt64_of_range _ (by omega)
  simp only [Time.addYearMonth, w1, w2]
  rcases lt_or_le (t.Month + m - 1) 0 with h | h
  · obtain ⟨h1, h2⟩ := tdiv_tmod_of_neg (t.Month + m - 1) 12 h (by decide)
    rw [h1, h2]
    have w3 : wrapInt64 (t.Year + -(-(t.Month + m - 1) / 12))
        = t.Year + -(-(t.Month + m - 1) / 12) := gotime.wrapInt64_of_range _ (by omega)
    have w4 : wrapInt64 (y + (t.Year + -(-(t.Month + m - 1) / 12)))
        = y + (t.Year + -(-(t.Month + m - 1) / 12)) := gotime.wrapInt64_of_range _ (by omega)
    have w5 : wrapInt64 (y + (t.Year + -(-(t.Month + m - 1) / 12)) - 1)
        = y + (t.Year + -(-(t.Month + m - 1) / 12)) - 1 := gotime.wrapInt64_of_range _ (by omega)
    rw [w3, w4, w5]
    split <;> (apply Prod.ext <;> simp only <;> omega)
  · obtain ⟨h1, h2⟩ := tdiv_tmod_of_nonneg (t.Month + m - 1) 12 h (by decide)
    rw [h1, h2]
    have w3 : wrapInt64 (t.Year + (t.Month + m - 1) / 12)
        = t.Year + (t.Month + m - 1) / 12 := gotime.wrapInt64_of_range _ (by omega)
    have w4 : wrapInt64 (y + (t.Year + (t.Month + m - 1) / 12))
        = y + (t.Year + (t.Month + m - 1) / 12) := gotime.wrapInt64_of_range _ (by omega)
    have w5 : wrapInt64 (y + (t.Year + (t.Month + m - 1) / 12) - 1)
        = y + (t.Year + (t.Month + m - 1) / 12) - 1 := gotime.wrapInt64_of_range _ (by omega)
    rw [w3, w4, w5]
    split <;> (apply Prod.ext <;> simp only <;> omega)

/-- The arguments `AddYear` passes to `Date`, and the instant it returns. -/
theorem addYearClamped_eq (t : Time) (y m : Int) :
    t.addYearArgs y m = some ((t.addYearMonth y m).1, (t.addYearMonth y m).2,
      min t.Day (gotime.daysInMonth (gotime.isLeap (t.addYearMonth y m).1) (t.addYearMonth y m).2)) ∧
    t.addYearClamped y m = some (Date (t.addYearMonth y m).1 (t.addYearMonth y m).2
      (min t.Day (gotime.daysInMonth (gotime.isLeap (t.addYearMonth y m).1) (t.addYearMonth y m).2))
      t.Hour t.Minute (t.Second []) (t.Second [9]) t.Location) := by
  have hr := addYearMonth_range t y m
  have e : t.addYearArgs y m = some ((t.addYearMonth y m).1, (t.addYearMonth y m).2,
      min t.Day (gotime.daysInMonth (gotime.isLeap (t.addYearMonth y m).1)
        (t.addYearMonth y m).2)) := by
    simp only [Time.addYearArgs, DaysIn_month _ _ hr, Option.map_some']
    congr 3
    rw [min_def]
    split <;> split <;> omega
  refine ⟨e, ?_⟩
  simp only [Time.addYearClamped, e, Option.map_some']

/-- The fields of the instant `AddYear` returns with at most two offsets, in a
fixed location and for a year and offsets that are small. -/
theorem addYearClamped_fields (t : Time) (y m : Int) (hz : t.Location.Fixed)
    (hY : small t.Year) (hy : small y) (hm : small m) :
    ∃ r, t.addYearClamped y m = some r ∧
      r.Year = t.Year + y + (t.Month + m - 1) / 12 ∧
      r.Month = (t.Month + m - 1) % 12 + 1 ∧
      r.Day = min t.Day (gotime.daysInMonth (gotime.isLeap r.Year) r.Month) ∧
      r.Hour = t.Hour ∧ r.Minute = t.Minute ∧ r.Second [] = t.Second [] ∧
      r.Second [9] = t.Second [9] ∧ r.Location = t.Location := by
  obtain ⟨_, e⟩ := addYearClamped_eq t y m
  obtain ⟨a, b, c, d, hh, hmi, hs, hn⟩ := fields_range t
  have hr := addYearMonth_range t y m
  have hf := addYearMonth_floor t y m (by omega) (by omega)
  have hl := daysInMonth_range (gotime.isLeap (t.addYearMonth y m).1) (t.addYearMonth y m).2 hr
  have hd : 1 ≤ min t.Day (gotime.daysInMonth (gotime.isLeap (t.addYearMonth y m).1)
        (t.addYearMonth y m).2) ∧
      min t.Day (gotime.daysInMonth (gotime.isLeap (t.addYearMonth y m).1)
        (t.addYearMonth y m).2) ≤
      gotime.daysInMonth (gotime.isLeap (t.addYearMonth y m).1) (t.addYearMonth y m).2 := by
    refine ⟨le_min c (by omega), min_le_right _ _⟩
  have hyr : -250000000000 ≤ (t.addYearMonth y m).1 ∧ (t.addYearMonth y m).1 ≤ 250000000000 := by
    rw [hf]
    simp only
    omega
  obtain ⟨f1, f2, f3, f4, f5, f6, f7⟩ :=
    Date_fields _ _ _ _ _ _ _ t.Location hz hyr hr hd hh hmi hs hn
  refine ⟨_, e, ?_, ?_, ?_, f4, f5, f6, f7, rfl⟩
  · rw [f1, hf]
  · rw [f2, hf]
  · rw [f1, f2, f3]

/-- The month selected by `Go` is a calendar month. -/
theorem goMonthSel_range (t : Time) (md : List Int) :
    1 ≤ t.goMonthSel md ∧ t.goMonthSel md ≤ 12 := by
  obtain ⟨a, b, _⟩ := fields_range t
  unfold Time.goMonthSel
  split
  · exact ⟨a, b⟩
  · split
    · omega
    · split <;> omega

/-- The arguments `Go` passes to `Date`, and the instant it returns. -/
theorem Go_eq (t : Time) (y : Int) (md : List Int) :
    t.goArgs y md = some (wrapInt64 (t.Year + y), t.goMonthSel md,
      goDay (gotime.daysInMonth (gotime.isLeap (wrapInt64 (t.Year + y))) (t.goMonthSel md))
        (t.goDaySel md)) ∧
    t.Go y md = some (Date (wrapInt64 (t.Year + y)) (t.goMonthSel md)
      (goDay (gotime.daysInMonth (gotime.isLeap (wrapInt64 (t.Year + y))) (t.goMonthSel md))
        (t.goDaySel md))
      t.Hour t.Minute (t.Second []) (t.Second [9]) t.Location) := by
  have hr := goMonthSel_range t md
  have e : t.goArgs y md = some (wrapInt64 (t.Year + y), t.goMonthSel md,
      goDay (gotime.daysInMonth (gotime.isLeap (wrapInt64 (t.Year + y))) (t.goMonthSel md))
        (t.goDaySel md)) := by
    simp only [Time.goArgs, DaysIn_month _ _ hr, Option.map_some']
  refine ⟨e, ?_⟩
  simp only [Time.Go, e, Option.map_some']

/-- The fields of the instant `Go` returns when the day selector is not zero,
in a fixed location and for a year and offset that are small. -/
theorem Go_fields (t : Time) (y : Int) (md : List Int) (hz : t.Location.Fixed)
    (hY : small t.Year) (hy : small y) (hd : t.goDaySel md ≠ 0) :
    ∃ r, t.Go y md = some r ∧ r.Year = t.Year + y ∧ r.Month = t.goMonthSel md ∧
      r.Day = goDay (gotime.daysInMonth (gotime.isLeap (t.Year + y)) (t.goMonthSel md))
        (t.goDaySel md) ∧
      r.Hour = t.Hour ∧ r.Minute = t.Minute ∧ r.Second [] = t.Second [] ∧
      r.Second [9] = t.Second [9] ∧ r.Location = t.Location := by
  obtain ⟨_, e⟩ := Go_eq t y md
  have w : wrapInt64 (t.Year + y) = t.Year + y := gotime.wrapInt64_of_range _ (by omega)
  rw [w] at e
  obtain ⟨_, _, _, _, hh, hmi, hs, hn⟩ := fields_range t
  have hr := goMonthSel_range t md
  have hl := daysInMonth_range (gotime.isLeap (t.Year + y)) (t.goMonthSel md) hr
  have hday : 1 ≤ goDay (gotime.daysInMonth (gotime.isLeap (t.Year + y)) (t.goMonthSel md))
        (t.goDaySel md) ∧
      goDay (gotime.daysInMonth (gotime.isLeap (t.Year + y)) (t.goMonthSel md))
        (t.goDaySel md) ≤
      gotime.daysInMonth (gotime.isLeap (t.Year + y)) (t.goMonthSel md) := by
    unfold goDay
    split <;> omega
  obtain ⟨f1, f2, f3, f4, f5, f6, f7⟩ :=
    Date_fields _ _ _ _ _ _ _ t.Location hz (by omega) hr hday hh hmi hs hn
  exact ⟨_, e, f1, f2, f3, f4, f5, f6, f7, rfl⟩

/-! ## The claims -/

set_option maxRecDepth 4000

/-- C1, as stated, fails. `AddYear(300000000000)` on 2023-01-15 passes the
year 300000002023 to `Date`, whose seconds wrap around 64 bits: the result is
the 8th of March of the year -284554047231, not a 15th. And in Sao Paulo
`AddMonth()` on 2018-10-04 00:30 asks for 2018-11-04 00:30, which daylight
saving time skips: the result is 2018-11-03 23:30, not a 4th. -/
theorem C1_day_saturation_counterexample :
    (∃ r, jan15_2023.AddYear [300000000000] = some r ∧ jan15_2023.Day = 15 ∧
      r.Year = -284554047231 ∧ r.Month = 3 ∧ r.Day = 8 ∧
      DaysIn r.Year [r.Month] = some 31 ∧ r.Day ≠ min jan15_2023.Day 31) ∧
    (∃ r, oct04_2018_sp.AddMonth [] = some r ∧ oct04_2018_sp.Day = 4 ∧
      r.Year = 2018 ∧ r.Month = 11 ∧ r.Day = 3 ∧
      DaysIn r.Year [r.Month] = some 30 ∧ r.Day ≠ min oct04_2018_sp.Day 30) :=
  ⟨⟨Date 300000002023 1 15 0 0 0 0 UTC, by decide, by decide, by decide, by decide, by decide,
      by decide, by decide⟩,
    ⟨Date 2018 11 4 0 30 0 0 thru.saoPaulo, by decide, by decide, by decide, by decide,
      by decide, by decide, by decide⟩⟩

/-- C1, amended. Day saturation in a location with a fixed offset, for a year
and offsets within `10^11` of zero: `AddYear(y, m)` returns the date whose
year and month are the carried year and month and whose day is
`min(t.Day(), DaysIn(Y', M'))`, so it never rolls into the following month;
`AddYear()`, `AddYear(y)`, `AddMonth()` and `AddMonth(m)` delegate to it;
`AddMonth()` applied to the 31st of January of any such year is the last day
of February of that year, as for 2024-01-31 and 2023-01-31. -/
theorem C1_day_saturation (t : Time) (y m : Int) (hz : t.Location.Fixed) (hY : small t.Year)
    (hy : small y) (hm : small m) :
    (∃ r L, t.AddYear [y, m] = some r ∧
      r.Year = t.Year + y + (t.Month + m - 1) / 12 ∧
      r.Month = (t.Month + m - 1) % 12 + 1 ∧
      DaysIn r.Year [r.Month] = some L ∧ r.Day = min t.Day L) ∧
    t.AddYear [] = t.AddYear [1, 0] ∧ t.AddYear [y] = t.AddYear [y, 0] ∧
    t.AddMonth [] = t.AddYear [0, 1] ∧ t.AddMonth [m] = t.AddYear [0, m] ∧
    (t.Month = 1 → t.Day = 31 → ∃ r, t.AddMonth [] = some r ∧ r.Year = t.Year ∧
      r.Month = 2 ∧ r.Day = (if IsLeapYear t.Year = true then 29 else 28) ∧
      DaysIn r.Year [r.Month] = some r.Day) ∧
    (Date 2024 1 31 0 0 0 0 UTC).AddMonth [] = some (Date 2024 2 29 0 0 0 0 UTC) ∧
    (Date 2023 1 31 0 0 0 0 UTC).AddMonth [] = some (Date 2023 2 28 0 0 0 0 UTC) := by
  refine ⟨?_, rfl, rfl, rfl, rfl, ?_, by decide, by decide⟩
  · obtain ⟨r, e, f1, f2, f3, _⟩ := addYearClamped_fields t y m hz hY hy hm
    refine ⟨r, _, e, f1, f2, DaysIn_month r.Year r.Month (by rw [f2]; omega), f3⟩
  · intro hm1 hd
    obtain ⟨r, e, f1, f2, f3, _⟩ := addYearClamped_fields t 0 1 hz hY (by decide) (by decide)
    simp only [hm1] at f1 f2
    norm_num at f1 f2
    have hday : r.Day = (if IsLeapYear t.Year = true then 29 else 28) := by
      rw [f3, f1, f2, hd, IsLeapYear_eq]
      cases gotime.isLeap t.Year <;> decide
    refine ⟨r, e, f1, f2, hday, ?_⟩
    rw [DaysIn_month r.Year r.Month (by rw [f2]; omega), f1, f2, hday, IsLeapYear_eq]
    cases gotime.isLeap t.Year <;> decide

/-- C1, amended, at 2023-01-31 12:30:15.5 UTC+1: adding one month gives
2023-02-28. -/
theorem C1_day_saturation_witness :
    ∃ r, (Date 2023 1 31 12 30 15 500000000 (FixedZone 3600)).AddMonth [] = some r ∧
      r.Year = (Date 2023 1 31 12 30 15 500000000 (FixedZone 3600)).Year ∧ r.Month = 2 ∧
      r.Day = (if IsLeapYear (Date 2023 1 31 12 30 15 500000000 (FixedZone 3600)).Year = true
        then 29 else 28) ∧
      DaysIn r.Year [r.Month] = some r.Day :=
  (C1_day_saturation (Date 2023 1 31 12 30 15 500000000 (FixedZone 3600)) 0 1 (by decide)
    (by decide) (by decide) (by decide)).2.2.2.2.2.1 (by decide) (by decide)

/-- C2, as stated, fails: line 62 adds `m` to the month in 64 bits. On
2023-03-01 with `m` the largest `int` the sum wraps, and the year and month
computed are -768614336404562628 and 6, which do not satisfy
`12*Y' + M' = 12*(t.Year() + y) + t.Month() + m`. -/
theorem C2_month_carry_counterexample :
    mar01_2023.Year = 2023 ∧ mar01_2023.Month = 3 ∧
    mar01_2023.addYearMonth 0 9223372036854775807 = (-768614336404562628, 6) ∧
    12 * (mar01_2023.addYearMonth 0 9223372036854775807).1
        + (mar01_2023.addYearMonth 0 9223372036854775807).2
      ≠ 12 * (mar01_2023.Year + 0) + mar01_2023.Month + 9223372036854775807 := by
  decide

/-- C2, amended. Month carry for offsets that keep lines 62 to 67 within 64
bits (`|y| ≤ 8 * 10^18` and `|m| ≤ 9 * 10^18`): the year `Y'` and month `M'`
computed by `AddYear(y, m)` and passed to `Date` satisfy
`12*Y' + M' = 12*(t.Year() + y) + t.Month() + m`, with `Y'` the floor quotient
and `M' - 1` the non-negative remainder of `t.Month() + m - 1` by 12, for every
sign of `y` and `m`. -/
theorem C2_month_carry (t : Time) (y m : Int)
    (hy : -8000000000000000000 ≤ y ∧ y ≤ 8000000000000000000)
    (hm : -9000000000000000000 ≤ m ∧ m ≤ 9000000000000000000) :
    12 * (t.addYearMonth y m).1 + (t.addYearMonth y m).2
      = 12 * (t.Year + y) + t.Month + m ∧
    (t.addYearMonth y m).1 = t.Year + y + Int.fdiv (t.Month + m - 1) 12 ∧
    (t.addYearMonth y m).2 = Int.fmod (t.Month + m - 1) 12 + 1 ∧
    0 ≤ Int.fmod (t.Month + m - 1) 12 ∧ Int.fmod (t.Month + m - 1) 12 < 12 ∧
    ∃ D, t.addYearArgs y m = some ((t.addYearMonth y m).1, (t.addYearMonth y m).2, D) ∧
      t.AddYear [y, m] = some (Date (t.addYearMonth y m).1 (t.addYearMonth y m).2 D
        t.Hour t.Minute (t.Second []) (t.Second [9]) t.Location) := by
  obtain ⟨e1, e2⟩ := addYearClamped_eq t y m
  have h1 : Int.fdiv (t.Month + m - 1) 12 = (t.Month + m - 1) / 12 :=
    Int.fdiv_eq_ediv _ (by decide)
  have h2 : Int.fmod (t.Month + m - 1) 12 = (t.Month + m - 1) % 12 :=
    Int.fmod_eq_emod _ (by decide)
  have hf := addYearMonth_floor t y m hy hm
  refine ⟨?_, ?_, ?_, by rw [h2]; omega, by rw [h2]; omega, _, e1, e2⟩
  · rw [hf]; simp only; omega
  · rw [hf, h1]
  · rw [hf, h2]

/-- C2, amended, for 14 months back from 2023-01-15. -/
theorem C2_month_carry_witness :
    12 * (jan15_2023.addYearMonth 0 (-14)).1 + (jan15_2023.addYearMonth 0 (-14)).2
      = 12 * (jan15_2023.Year + 0) + jan15_2023.Month + -14 :=
  (C2_month_carry jan15_2023 0 (-14) (by decide) (by decide)).1

/-- C3. Range of the normalised triple: the `(year, month, day)` that
`AddYear(y, m)` passes to `Date` has its month in `[1, 12]` and its day in
`[1, DaysIn(year, month)]`. -/
theorem C3_normalizer_range (t : Time) (y m : Int) :
    ∃ Y M D L, t.addYearArgs y m = some (Y, M, D) ∧
      t.AddYear [y, m] =
        some (Date Y M D t.Hour t.Minute (t.Second []) (t.Second [9]) t.Location) ∧
      1 ≤ M ∧ M ≤ 12 ∧ DaysIn Y [M] = some L ∧ 1 ≤ D ∧ D ≤ L := by
  obtain ⟨e1, e2⟩ := addYearClamped_eq t y m
  obtain ⟨_, _, c, _⟩ := fields_range t
  have hr := addYearMonth_range t y m
  have hl := daysInMonth_range (gotime.isLeap (t.addYearMonth y m).1) (t.addYearMonth y m).2 hr
  exact ⟨_, _, _, _, e1, e2, hr.1, hr.2, DaysIn_month _ _ hr, le_min c (by omega),
    min_le_right _ _⟩

/-- C4, as stated, fails for the month of the result: `Go(300000000000, 1)` on
2023-01-15 resolves the month to 1 and passes the year 300000002023 to `Date`,
whose seconds wrap around 64 bits; the instant returned is in March of the
year -284554047231. -/
theorem C4_go_month_selector_counterexample :
    ∃ r, jan15_2023.Go 300000000000 [1] = some r ∧
      jan15_2023.goArgs 300000000000 [1] = some (300000002023, 1, 15) ∧
      r.Year = -284554047231 ∧ r.Month = 3 ∧ r.Month ≠ min 1 12 :=
  ⟨Date 300000002023 1 15 0 0 0 0 UTC, by decide, by decide, by decide, by decide, by decide⟩

/-- C4, amended. Month selector of `Go`: `Go(y, m)` resolves the month it
passes to `Date` to `min(m, 12)` when `m > 0`, to `max(13 + m, 1)` when `m < 0`
and to the month of `t` when `m = 0`, always a month in `[1, 12]`. In a
location with a fixed offset and for a year and offset within `10^11` of zero
this is the month of the result, whose year is `t.Year() + y`; `Go(0, -1)` is
then in December and `Go(0, -2)` in November of the current year. -/
theorem C4_go_month_selector (t : Time) (y m : Int) :
    (∃ Y D, t.goArgs y [m] = some (Y,
        (if m > 0 then min m 12 else if m < 0 then max (13 + m) 1 else t.Month), D) ∧
      t.Go y [m] = some (Date Y
        (if m > 0 then min m 12 else if m < 0 then max (13 + m) 1 else t.Month) D
        t.Hour t.Minute (t.Second []) (t.Second [9]) t.Location) ∧
      1 ≤ (if m > 0 then min m 12 else if m < 0 then max (13 + m) 1 else t.Month) ∧
      (if m > 0 then min m 12 else if m < 0 then max (13 + m) 1 else t.Month) ≤ 12) ∧
    (t.goMonthSel [-1] = 12 ∧ t.goMonthSel [-2] = 11 ∧ t.goMonthSel [0] = t.Month) ∧
    (t.Location.Fixed → small t.Year → small y →
      ∃ r, t.Go y [m] = some r ∧ r.Year = t.Year + y ∧
        r.Month = (if m > 0 then min m 12 else if m < 0 then max (13 + m) 1 else t.Month) ∧
        1 ≤ r.Month ∧ r.Month ≤ 12) ∧
    (t.Location.Fixed → small t.Year →
      (∃ r, t.Go 0 [-1] = some r ∧ r.Year = t.Year ∧ r.Month = 12) ∧
      (∃ r, t.Go 0 [-2] = some r ∧ r.Year = t.Year ∧ r.Month = 11)) := by
  have hday : ∀ k : Int, t.goDaySel [k] ≠ 0 := by
    intro k
    obtain ⟨_, _, c, _⟩ := fields_range t
    have e : t.goDaySel [k] = t.Day := rfl
    rw [e]
    omega
  have hr := goMonthSel_range t [m]
  refine ⟨⟨_, _, (Go_eq t y [m]).1, (Go_eq t y [m]).2, hr.1, hr.2⟩, ⟨rfl, rfl, rfl⟩, ?_, ?_⟩
  · intro hz hY hy
    obtain ⟨r, e, f1, f2, _⟩ := Go_fields t y [m] hz hY hy (hday m)
    refine ⟨r, e, f1, f2, ?_, ?_⟩
    · rw [f2]; exact hr.1
    · rw [f2]; exact hr.2
  · intro hz hY
    constructor
    · obtain ⟨r, e, f1, f2, _⟩ := Go_fields t 0 [-1] hz hY (by decide) (hday _)
      exact ⟨r, e, by rw [f1, add_zero], by rw [f2]; rfl⟩
    · obtain ⟨r, e, f1, f2, _⟩ := Go_fields t 0 [-2] hz hY (by decide) (hday _)
      exact ⟨r, e, by rw [f1, add_zero], by rw [f2]; rfl⟩

/-- C4, amended, at 2023-06-15 12:30:15.5 UTC+1: `Go(1, -3)` is in October
2024. -/
theorem C4_go_month_selector_witness :
    ∃ r, jun15_2023.Go 1 [-3] = some r ∧ r.Year = jun15_2023.Year + 1 ∧
      r.Month = (if (-3 : Int) > 0 then min (-3) 12 else if (-3 : Int) < 0 then max (13 + -3) 1
        else jun15_2023.Month) ∧
      1 ≤ r.Month ∧ r.Month ≤ 12 :=
  (C4_go_month_selector jun15_2023 1 (-3)).2.2.1 (by decide) (by decide) (by decide)

/-- C5, as stated, fails: on 2023-06-15 `Go(0, -1, -1)` is December 31, the
last day of the month of length 31, not day `31 - 1`. -/
theorem C5_go_day_selector_counterexample :
    ∃ r L, jun15_2023.Go 0 [-1, -1] = some r ∧ DaysIn r.Year [r.Month] = some L ∧
      r.Month = 12 ∧ r.Day = 31 ∧ r.Day ≠ L - 1 :=
  ⟨Date 2023 12 31 12 30 15 500000000 (FixedZone 3600), 31, by decide, by decide, by decide,
    by decide, by decide⟩

/-- C5, amended. In a location with a fixed offset and for a year and offset
within `10^11` of zero: for a month of length `L` and every `k` with
`1 ≤ k ≤ L`, the day selector `-k` passed to `Go`, `GoMonth` or `GoDay`
selects day `L - k + 1` of the resolved month: `-1` is the last day and `-2`
the second-to-last, so `Go(0, -1, -1)` is December 31 of the current year. -/
theorem C5_go_day_selector (t : Time) (y m k L : Int) (hz : t.Location.Fixed)
    (hY : small t.Year) (hy : small y)
    (hL : DaysIn (t.Year + y) [t.goMonthSel [m]] = some L) (hk : 1 ≤ k ∧ k ≤ L) :
    (∃ r, t.Go y [m, -k] = some r ∧ r.Year = t.Year + y ∧ r.Month = t.goMonthSel [m] ∧
      r.Day = L - k + 1) ∧
    t.GoMonth m [-k] = t.Go 0 [m, -k] ∧ t.GoDay (-k) = t.Go 0 [0, -k] ∧
    (∃ r, t.Go 0 [-1, -1] = some r ∧ r.Year = t.Year ∧ r.Month = 12 ∧ r.Day = 31) := by
  have hsel : ∀ a b : Int, t.goDaySel [a, b] = b := fun _ _ => rfl
  have hmon : ∀ a b : Int, t.goMonthSel [a, b] = t.goMonthSel [a] := fun _ _ => rfl
  refine ⟨?_, rfl, rfl, ?_⟩
  · obtain ⟨r, e, f1, f2, f3, _⟩ := Go_fields t y [m, -k] hz hY hy (by rw [hsel]; omega)
    rw [DaysIn_month _ _ (goMonthSel_range t [m])] at hL
    rw [hsel, hmon, Option.some.inj hL] at f3
    refine ⟨r, e, f1, f2, ?_⟩
    rw [f3]
    unfold goDay
    split <;> omega
  · obtain ⟨r, e, f1, f2, f3, _⟩ :=
      Go_fields t 0 [-1, -1] hz hY (by decide) (by rw [hsel]; omega)
    refine ⟨r, e, by rw [f1, add_zero], by rw [f2]; rfl, ?_⟩
    rw [f3, hsel]
    have e12 : t.goMonthSel [-1, -1] = 12 := rfl
    rw [e12]
    cases gotime.isLeap (t.Year + 0) <;> decide

/-- C5, amended, at 2023-06-15: `Go(0, 2, -1)` is 2023-02-28. -/
theorem C5_go_day_selector_witness :
    ∃ r, jun15_2023.Go 0 [2, -1] = some r ∧ r.Year = jun15_2023.Year + 0 ∧
      r.Month = jun15_2023.goMonthSel [2] ∧ r.Day = 28 - 1 + 1 :=
  (C5_go_day_selector jun15_2023 0 2 1 28 (by decide) (by decide) (by decide) (by decide)
    (by decide)).1

/-- C6 on the code: between 2023-03-01 and 2023-01-31 the integer month
difference is 2, yet `DiffAbsIn` in unit "M" is `1/31`, which is below
`|2| - 1`. Line 428 takes a month off when the day difference is negative and
line 433 then adds the negative day fraction as well. -/
theorem C6_month_diff_defect :
    mar01_2023.DiffAbsIn jan31_2023 "M" = some (1 / 31) ∧
    (mar01_2023.Year - jan31_2023.Year) * 12 + (mar01_2023.Month - jan31_2023.Month) = 2 ∧
    (1 / 31 : ℚ) <
      |(((mar01_2023.Year - jan31_2023.Year) * 12
          + (mar01_2023.Month - jan31_2023.Month) : Int) : ℚ)| - 1 := by
  have y1 : mar01_2023.Year = 2023 := by decide
  have y2 : jan31_2023.Year = 2023 := by decide
  have m1 : mar01_2023.Month = 3 := by decide
  have m2 : jan31_2023.Month = 1 := by decide
  have d1 : mar01_2023.Day = 1 := by decide
  have d2 : jan31_2023.Day = 31 := by decide
  have md : jan31_2023.MonthDays = some 31 := by decide
  have s1 : ¬ ("M" = "y") := by decide
  refine ⟨?_, ?_, ?_⟩
  · simp only [Time.DiffAbsIn, Time.DiffIn, y1, y2, m1, m2, d1, d2, md, s1, if_false, if_true,
      Option.map_some']
    norm_num
  · rw [y1, y2, m1, m2]; decide
  · rw [y1, y2, m1, m2]; norm_num

/-- Day number and clock of an instant that `Date` builds in a fixed location
in the year and month of `t` from a day and a clock in range: the day number is
that of `t` moved by the difference of the days. -/
theorem Date_in_month (t : Time) (day hour min sec nsec : Int) (loc : Location) (hz : loc.Fixed)
    (hY : small t.Year) (hd : -1000000000000 ≤ day ∧ day ≤ 1000000000000)
    (hh : 0 ≤ hour ∧ hour < 24) (hmi : 0 ≤ min ∧ min < 60) (hs : 0 ≤ sec ∧ sec < 60)
    (hn : 0 ≤ nsec ∧ nsec < 1000000000) :
    (Date t.Year t.Month day hour min sec nsec loc).time.absDays
      = t.time.absDays + (day - t.Day) ∧
    (Date t.Year t.Month day hour min sec nsec loc).Hour = hour ∧
    (Date t.Year t.Month day hour min sec nsec loc).Minute = min ∧
    (Date t.Year t.Month day hour min sec nsec loc).Second [] = sec ∧
    (Date t.Year t.Month day hour min sec nsec loc).Second [9] = nsec := by
  obtain ⟨a, b, _, _, e⟩ := gotime.date_range t.time
  have hm : 1 ≤ t.Month ∧ t.Month ≤ 12 := ⟨a, b⟩
  obtain ⟨c1, c2, c3, c4⟩ :=
    gotime.clock_Date t.Year t.Month day hour min sec nsec loc hz (by omega) (by omega) hd
      hh hmi hs hn
  have h := gotime.absDays_Date t.Year t.Month day hour min sec nsec loc hz (by omega) (by omega)
    hd hh hmi hs hn
  have e1 : (t.Month - 1) / 12 = 0 := by omega
  have e2 : (t.Month - 1) % 12 + 1 = t.Month := by omega
  rw [e1, e2, add_zero] at h
  rw [Second_nine]
  refine ⟨?_, c1, c2, c3, c4⟩
  show (gotime.Date t.Year t.Month day hour min sec nsec loc).absDays = _
  rw [h]
  have e' : t.time.absDays = gotime.daysSinceEpoch t.Year
      + gotime.daysBeforeMonth (gotime.isLeap t.Year) t.Month + (t.Day - 1) := e
  rw [e']
  omega

/-- Nanoseconds between two instants `Date` builds in the same year, month and
fixed location. -/
theorem Date_ns_diff (y m d1 h1 mi1 s1 n1 d2 h2 mi2 s2 n2 : Int) (loc : Location)
    (hz : loc.Fixed) (hy : -250000000000 ≤ y ∧ y ≤ 250000000000)
    (hm : -200000000000 ≤ m ∧ m ≤ 200000000000)
    (hd1 : -1000000000000 ≤ d1 ∧ d1 ≤ 1000000000000)
    (hd2 : -1000000000000 ≤ d2 ∧ d2 ≤ 1000000000000)
    (hh1 : 0 ≤ h1 ∧ h1 < 24) (hmi1 : 0 ≤ mi1 ∧ mi1 < 60) (hs1 : 0 ≤ s1 ∧ s1 < 60)
    (hn1 : 0 ≤ n1 ∧ n1 < 1000000000)
    (hh2 : 0 ≤ h2 ∧ h2 < 24) (hmi2 : 0 ≤ mi2 ∧ mi2 < 60) (hs2 : 0 ≤ s2 ∧ s2 < 60)
    (hn2 : 0 ≤ n2 ∧ n2 < 1000000000) :
    (Date y m d1 h1 mi1 s1 n1 loc).time.ns - (Date y m d2 h2 mi2 s2 n2 loc).time.ns =
      ((d1 - d2) * 86400 + (h1 - h2) * 3600 + (mi1 - mi2) * 60 + (s1 - s2)) * 1000000000
        + (n1 - n2) := by
  show (gotime.Date y m d1 h1 mi1 s1 n1 loc).ns - (gotime.Date y m d2 h2 mi2 s2 n2 loc).ns = _
  rw [gotime.ns_Date y m d1 h1 mi1 s1 n1 loc hz hy hm hd1 hh1 hmi1 hs1 hn1,
    gotime.ns_Date y m d2 h2 mi2 s2 n2 loc hz hy hm hd2 hh2 hmi2 hs2 hn2]
  generalize gotime.daysSinceEpoch (y + (m - 1) / 12) = A
  generalize gotime.daysBeforeMonth (gotime.isLeap (y + (m - 1) / 12)) ((m - 1) % 12 + 1) = B
  omega

/-- The weekday with Sunday as 7 is in `[1, 7]` and congruent to the day number. -/
theorem isoWeekday_spec (t : Time) :
    1 ≤ t.isoWeekday ∧ t.isoWeekday ≤ 7 ∧ t.isoWeekday % 7 = (t.time.absDays + 1) % 7 := by
  unfold Time.isoWeekday
  have e : t.Weekday = (t.time.absDays + 1) % 7 := rfl
  split <;> omega

/-- The saturation of `Sub` leaves a week less a nanosecond as it is. -/
theorem Sub_week (a b : Time) (h : a.time.ns - b.time.ns = 604799999999999) :
    a.Sub b = 604799999999999 := by
  simp only [Time.Sub, gotime.Time.Sub, h, gotime.minDuration, gotime.maxDuration]
  decide

/-- C7, as stated, fails in a location with daylight saving time: for
2023-03-08 12:00 in New York `StartWeek()` is Monday 2023-03-06 00:00:00 and
`EndWeek()` is Sunday 2023-03-12 23:59:59.999999999, the day on which an hour
is skipped, and `EndWeek().Sub(StartWeek())` is 601199999999999 nanoseconds,
an hour less than 6 days 23:59:59.999999999. -/
theorem C7_week_window_counterexample :
    (mar08_2023_ny.StartWeek []).Weekday = 1 ∧ (mar08_2023_ny.StartWeek []).Day = 6 ∧
    (mar08_2023_ny.StartWeek []).Hour = 0 ∧
    (mar08_2023_ny.EndWeek []).Weekday = 0 ∧ (mar08_2023_ny.EndWeek []).Day = 12 ∧
    (mar08_2023_ny.EndWeek []).Hour = 23 ∧
    (mar08_2023_ny.EndWeek []).Sub (mar08_2023_ny.StartWeek []) = 601199999999999 ∧
    (mar08_2023_ny.EndWeek []).Sub (mar08_2023_ny.StartWeek []) ≠ 604799999999999 :=
  ⟨by decide, by decide, by decide, by decide, by decide, by decide, by decide, by decide⟩

/-- C7, amended. Week window in a location with a fixed offset, for a year and
an offset `n` within `10^11` of zero: `StartWeek()` is 00:00:00.000000000 on a
Monday and `EndWeek()` is 23:59:59.999999999 on the Sunday of the same
Monday-started week (day arguments `t.Day() - w + 1` and `t.Day() + 7 - w`,
with `w` the weekday counted Monday 1 to Sunday 7), `EndWeek().Sub(StartWeek())`
is 6 days 23:59:59.999999999, and with an offset `n` both ends shift by `n*7`
days. -/
theorem C7_week_window (t : Time) (n : Int) (hz : t.Location.Fixed) (hY : small t.Year)
    (hn : small n) :
    ((t.StartWeek []).Weekday = 1 ∧ (t.StartWeek []).Hour = 0 ∧ (t.StartWeek []).Minute = 0 ∧
      (t.StartWeek []).Second [] = 0 ∧ (t.StartWeek []).Second [9] = 0) ∧
    ((t.EndWeek []).Weekday = 0 ∧ (t.EndWeek []).Hour = 23 ∧ (t.EndWeek []).Minute = 59 ∧
      (t.EndWeek []).Second [] = 59 ∧ (t.EndWeek []).Second [9] = 999999999) ∧
    ((t.StartWeek []).time.absDays ≤ t.time.absDays ∧
      t.time.absDays ≤ (t.EndWeek []).time.absDays ∧
      (t.EndWeek []).time.absDays = (t.StartWeek []).time.absDays + 6) ∧
    (t.startWeekDay [] = t.Day - t.isoWeekday + 1 ∧ t.endWeekDay [] = t.Day + (7 - t.isoWeekday) ∧
      1 ≤ t.isoWeekday ∧ t.isoWeekday ≤ 7 ∧
      t.isoWeekday = (if t.Weekday = 0 then 7 else t.Weekday)) ∧
    (t.EndWeek []).Sub (t.StartWeek []) = 604799999999999 ∧
    ((t.StartWeek [n]).time.ns = (t.StartWeek []).time.ns + n * 7 * 86400000000000 ∧
      (t.EndWeek [n]).time.ns = (t.EndWeek []).time.ns + n * 7 * 86400000000000 ∧
      (t.StartWeek [n]).time.absDays = (t.StartWeek []).time.absDays + n * 7 ∧
      (t.EndWeek [n]).time.absDays = (t.EndWeek []).time.absDays + n * 7 ∧
      (t.StartWeek [n]).Weekday = 1 ∧ (t.EndWeek [n]).Weekday = 0 ∧
      (t.EndWeek [n]).Sub (t.StartWeek [n]) = 604799999999999) := by
  obtain ⟨w1, w7, wm⟩ := isoWeekday_spec t
  obtain ⟨_, _, dlo, _⟩ := fields_range t
  have dhi := day_le t
  have hYr : -250000000000 ≤ t.Year ∧ t.Year ≤ 250000000000 := by omega
  have hMr : -200000000000 ≤ t.Month ∧ t.Month ≤ 200000000000 := by
    obtain ⟨a, b, _⟩ := fields_range t
    omega
  have sd0 : t.startWeekDay [] = t.Day - t.isoWeekday + 1 := rfl
  have ed0 : t.endWeekDay [] = t.Day + (7 - t.isoWeekday) := rfl
  have wn : wrapInt64 (n * 7) = n * 7 := gotime.wrapInt64_of_range _ (by omega)
  have sdn : t.startWeekDay [n] = t.Day - t.isoWeekday + 1 + n * 7 := by
    show wrapInt64 (t.Day - t.isoWeekday + 1 + wrapInt64 (n * 7)) = _
    rw [wn, gotime.wrapInt64_of_range _ (by omega)]
  have edn : t.endWeekDay [n] = t.Day + (7 - t.isoWeekday) + n * 7 := by
    show wrapInt64 (t.Day + (7 - t.isoWeekday) + wrapInt64 (n * 7)) = _
    rw [wn, gotime.wrapInt64_of_range _ (by omega)]
  have rs0 : -1000000000000 ≤ t.startWeekDay [] ∧ t.startWeekDay [] ≤ 1000000000000 := by
    rw [sd0]; omega
  have rsn : -1000000000000 ≤ t.startWeekDay [n] ∧ t.startWeekDay [n] ≤ 1000000000000 := by
    rw [sdn]; omega
  have re0 : -1000000000000 ≤ t.endWeekDay [] ∧ t.endWeekDay [] ≤ 1000000000000 := by
    rw [ed0]; omega
  have ren : -1000000000000 ≤ t.endWeekDay [n] ∧ t.endWeekDay [n] ≤ 1000000000000 := by
    rw [edn]; omega
  have hs : ∀ l, (-1000000000000 ≤ t.startWeekDay l ∧ t.startWeekDay l ≤ 1000000000000) →
      (t.StartWeek l).time.absDays = t.time.absDays + (t.startWeekDay l - t.Day) ∧
      (t.StartWeek l).Hour = 0 ∧ (t.StartWeek l).Minute = 0 ∧ (t.StartWeek l).Second [] = 0 ∧
      (t.StartWeek l).Second [9] = 0 := fun l hl =>
    Date_in_month t (t.startWeekDay l) 0 0 0 0 t.Location hz hY hl (by decide) (by decide)
      (by decide) (by decide)
  have he : ∀ l, (-1000000000000 ≤ t.endWeekDay l ∧ t.endWeekDay l ≤ 1000000000000) →
      (t.EndWeek l).time.absDays = t.time.absDays + (t.endWeekDay l - t.Day) ∧
      (t.EndWeek l).Hour = 23 ∧ (t.EndWeek l).Minute = 59 ∧ (t.EndWeek l).Second [] = 59 ∧
      (t.EndWeek l).Second [9] = 999999999 := fun l hl =>
    Date_in_month t (t.endWeekDay l) 23 59 59 999999999 t.Location hz hY hl (by decide)
      (by decide) (by decide) (by decide)
  have wd : ∀ r : Time, r.Weekday = (r.time.absDays + 1) % 7 := fun _ => rfl
  obtain ⟨s0, s0h, s0m, s0s, s0n⟩ := hs [] rs0
  obtain ⟨sn, _⟩ := hs [n] rsn
  obtain ⟨e0, e0h, e0m, e0s, e0n⟩ := he [] re0
  obtain ⟨en, _⟩ := he [n] ren
  have dse : ∀ l k, (-1000000000000 ≤ t.endWeekDay l ∧ t.endWeekDay l ≤ 1000000000000) →
      (-1000000000000 ≤ t.startWeekDay k ∧ t.startWeekDay k ≤ 1000000000000) →
      (t.EndWeek l).time.ns - (t.StartWeek k).time.ns =
        ((t.endWeekDay l - t.startWeekDay k) * 86400 + (23 - 0) * 3600 + (59 - 0) * 60
          + (59 - 0)) * 1000000000 + (999999999 - 0) := fun l k hl hk =>
    Date_ns_diff t.Year t.Month (t.endWeekDay l) 23 59 59 999999999 (t.startWeekDay k) 0 0 0 0
      t.Location hz hYr hMr hl hk (by decide) (by decide) (by decide) (by decide) (by decide)
      (by decide) (by decide) (by decide)
  have dss : (t.StartWeek [n]).time.ns - (t.StartWeek []).time.ns =
        ((t.startWeekDay [n] - t.startWeekDay []) * 86400 + (0 - 0) * 3600 + (0 - 0) * 60
          + (0 - 0)) * 1000000000 + (0 - 0) :=
    Date_ns_diff t.Year t.Month (t.startWeekDay [n]) 0 0 0 0 (t.startWeekDay []) 0 0 0 0
      t.Location hz hYr hMr rsn rs0 (by decide) (by decide) (by decide) (by decide) (by decide)
      (by decide) (by decide) (by decide)
  have dee : (t.EndWeek [n]).time.ns - (t.EndWeek []).time.ns =
        ((t.endWeekDay [n] - t.endWeekDay []) * 86400 + (23 - 23) * 3600 + (59 - 59) * 60
          + (59 - 59)) * 1000000000 + (999999999 - 999999999) :=
    Date_ns_diff t.Year t.Month (t.endWeekDay [n]) 23 59 59 999999999 (t.endWeekDay [])
      23 59 59 999999999 t.Location hz hYr hMr ren re0 (by decide) (by decide) (by decide)
      (by decide) (by decide) (by decide) (by decide) (by decide)
  have d00 := dse [] [] re0 rs0
  have dnn := dse [n] [n] ren rsn
  rw [sd0, ed0] at d00
  rw [sdn, edn] at dnn
  rw [sdn, sd0] at dss
  rw [edn, ed0] at dee
  rw [sd0] at s0
  rw [sdn] at sn
  rw [ed0] at e0
  rw [edn] at en
  have sub0 : (t.EndWeek []).Sub (t.StartWeek []) = 604799999999999 :=
    Sub_week _ _ (by omega)
  have subn : (t.EndWeek [n]).Sub (t.StartWeek [n]) = 604799999999999 :=
    Sub_week _ _ (by omega)
  refine ⟨⟨?_, s0h, s0m, s0s, s0n⟩, ⟨?_, e0h, e0m, e0s, e0n⟩, ⟨by omega, by omega, by omega⟩,
    ⟨sd0, ed0, w1, w7, rfl⟩, sub0, by omega, by omega, by omega, by omega, ?_, ?_, subn⟩
  · rw [wd, s0]; omega
  · rw [wd, e0]; omega
  · rw [wd, sn]; omega
  · rw [wd, en]; omega

/-- C7, amended, at 2023-06-15 12:30:15.5 UTC+1 and two weeks on. -/
theorem C7_week_window_witness :
    (jun15_2023.EndWeek []).Sub (jun15_2023.StartWeek []) = 604799999999999 ∧
    (jun15_2023.StartWeek [2]).Weekday = 1 ∧ (jun15_2023.EndWeek [2]).Weekday = 0 :=
  ⟨(C7_week_window jun15_2023 2 (by decide) (by decide) (by decide)).2.2.2.2.1,
    (C7_week_window jun15_2023 2 (by decide) (by decide) (by decide)).2.2.2.2.2.2.2.2.2.1,
    (C7_week_window jun15_2023 2 (by decide) (by decide) (by decide)).2.2.2.2.2.2.2.2.2.2.1⟩

/-- Fields of the start of a day that `Date` builds in a fixed location from a
year and month in range and a day within the length of the normalised month. -/
theorem Date_carried (year month day : Int) (loc : Location) (hz : loc.Fixed)
    (hy : -250000000000 ≤ year ∧ year ≤ 250000000000)
    (hm : -200000000000 ≤ month ∧ month ≤ 200000000000)
    (hd : 1 ≤ day ∧ day ≤ gotime.daysInMonth (gotime.isLeap (year + (month - 1) / 12))
      ((month - 1) % 12 + 1)) :
    (Date year month day 0 0 0 0 loc).Year = year + (month - 1) / 12 ∧
    (Date year month day 0 0 0 0 loc).Month = (month - 1) % 12 + 1 ∧
    (Date year month day 0 0 0 0 loc).Day = day := by
  have hl := daysInMonth_range (gotime.isLeap (year + (month - 1) / 12)) ((month - 1) % 12 + 1)
    (by omega)
  exact gotime.date_of_absDays _ _ _ _ (by omega) hd
    (gotime.absDays_Date year month day 0 0 0 0 loc hz hy hm (by omega) (by decide) (by decide)
      (by decide) (by decide))

/-- Day number and clock of the start of a day that `Date` builds in a fixed
location from a year, month and day in range. -/
theorem Date_start (year month day : Int) (loc : Location) (hz : loc.Fixed)
    (hy : -250000000000 ≤ year ∧ year ≤ 250000000000)
    (hm : -200000000000 ≤ month ∧ month ≤ 200000000000)
    (hd : -1000000000000 ≤ day ∧ day ≤ 1000000000000) :
    (Date year month day 0 0 0 0 loc).time.absDays =
      gotime.daysSinceEpoch (year + (month - 1) / 12) +
        gotime.daysBeforeMonth (gotime.isLeap (year + (month - 1) / 12)) ((month - 1) % 12 + 1)
        + (day - 1) ∧
    (Date year month day 0 0 0 0 loc).Hour = 0 ∧ (Date year month day 0 0 0 0 loc).Minute = 0 ∧
    (Date year month day 0 0 0 0 loc).Second [] = 0 ∧
    (Date year month day 0 0 0 0 loc).Second [9] = 0 := by
  obtain ⟨c1, c2, c3, c4⟩ :=
    gotime.clock_Date year month day 0 0 0 0 loc hz hy hm hd (by decide) (by decide) (by decide)
      (by decide)
  rw [Second_nine]
  exact ⟨gotime.absDays_Date year month day 0 0 0 0 loc hz hy hm hd (by decide) (by decide)
    (by decide) (by decide), c1, c2, c3, c4⟩

/-- C8, as stated, fails: `Start(0, 1, 0)` on 2023-01-31 is 2023-03-03
00:00:00, not 2023-02-28 00:00:00. -/
theorem C8_start_three_offsets_counterexample :
    jan31_2023.Start [0, 1, 0] = Date 2023 3 3 0 0 0 0 UTC ∧
    (jan31_2023.Start [0, 1, 0]).Year = 2023 ∧ (jan31_2023.Start [0, 1, 0]).Month = 3 ∧
    (jan31_2023.Start [0, 1, 0]).Day = 3 ∧
    jan31_2023.Start [0, 1, 0] ≠ Date 2023 2 28 0 0 0 0 UTC := by
  decide

/-- C8, amended. In a location with a fixed offset, for a year and offsets
within `10^11` of zero, `Start(y, m, d)` is 00:00:00.000000000 of the day that
lies `t.Day() + d - 1` days after the first day of the month reached by
advancing the year and month of `t` by `y` and `m` (month carried into the
year, which is the date of `Start(y, m)`): it is day `t.Day() + d` of that
month when this is within the length of the month, and a day beyond the length
is not clamped but leaves the month. -/
theorem C8_start_three_offsets (t : Time) (y m d : Int) (hz : t.Location.Fixed)
    (hY : small t.Year) (hy : small y) (hm : small m) (hd : small d) :
    ((t.Start [y, m, d]).Hour = 0 ∧ (t.Start [y, m, d]).Minute = 0 ∧
      (t.Start [y, m, d]).Second [] = 0 ∧ (t.Start [y, m, d]).Second [9] = 0) ∧
    ((t.Start [y, m]).Year = t.Year + y + Int.fdiv (t.Month + m - 1) 12 ∧
      (t.Start [y, m]).Month = Int.fmod (t.Month + m - 1) 12 + 1 ∧ (t.Start [y, m]).Day = 1) ∧
    (t.Start [y, m, d]).time.absDays = (t.Start [y, m]).time.absDays + (t.Day + d - 1) ∧
    (t.Start [y, m, d]).time.ns
      = (t.Start [y, m]).time.ns + (t.Day + d - 1) * 86400000000000 ∧
    (∀ L, DaysIn (t.Start [y, m]).Year [(t.Start [y, m]).Month] = some L →
      1 ≤ t.Day + d → t.Day + d ≤ L →
      (t.Start [y, m, d]).Year = (t.Start [y, m]).Year ∧
      (t.Start [y, m, d]).Month = (t.Start [y, m]).Month ∧
      (t.Start [y, m, d]).Day = t.Day + d) ∧
    (∀ L, DaysIn (t.Start [y, m]).Year [(t.Start [y, m]).Month] = some L →
      L < t.Day + d →
      ¬ ((t.Start [y, m, d]).Year = (t.Start [y, m]).Year ∧
        (t.Start [y, m, d]).Month = (t.Start [y, m]).Month)) := by
  have h1 : Int.fdiv (t.Month + m - 1) 12 = (t.Month + m - 1) / 12 :=
    Int.fdiv_eq_ediv _ (by decide)
  have h2 : Int.fmod (t.Month + m - 1) 12 = (t.Month + m - 1) % 12 :=
    Int.fmod_eq_emod _ (by decide)
  obtain ⟨ma, mb, da, _⟩ := fields_range t
  have db := day_le t
  have wy : wrapInt64 (t.Year + y) = t.Year + y := gotime.wrapInt64_of_range _ (by omega)
  have wm : wrapInt64 (t.Month + m) = t.Month + m := gotime.wrapInt64_of_range _ (by omega)
  have wd : wrapInt64 (t.Day + d) = t.Day + d := gotime.wrapInt64_of_range _ (by omega)
  have s3 : t.Start [y, m, d] = Date (t.Year + y) (t.Month + m) (t.Day + d) 0 0 0 0 t.Location := by
    show Date (wrapInt64 (t.Year + y)) (wrapInt64 (t.Month + m)) (wrapInt64 (t.Day + d)) 0 0 0 0
      t.Location = _
    rw [wy, wm, wd]
  have s2 : t.Start [y, m] = Date (t.Year + y) (t.Month + m) 1 0 0 0 0 t.Location := by
    show Date (wrapInt64 (t.Year + y)) (wrapInt64 (t.Month + m)) 1 0 0 0 0 t.Location = _
    rw [wy, wm]
  have ry : -250000000000 ≤ t.Year + y ∧ t.Year + y ≤ 250000000000 := by omega
  have rm : -200000000000 ≤ t.Month + m ∧ t.Month + m ≤ 200000000000 := by omega
  have rd : -1000000000000 ≤ t.Day + d ∧ t.Day + d ≤ 1000000000000 := by omega
  have hr : 1 ≤ (t.Month + m - 1) % 12 + 1 ∧ (t.Month + m - 1) % 12 + 1 ≤ 12 := by omega
  have hl := daysInMonth_range (gotime.isLeap (t.Year + y + (t.Month + m - 1) / 12))
    ((t.Month + m - 1) % 12 + 1) hr
  obtain ⟨a3, b3, c3, d3, e3⟩ :=
    Date_start (t.Year + y) (t.Month + m) (t.Day + d) t.Location hz ry rm rd
  obtain ⟨a2, _⟩ := Date_start (t.Year + y) (t.Month + m) 1 t.Location hz ry rm (by decide)
  obtain ⟨f1, f2, f3⟩ :=
    Date_carried (t.Year + y) (t.Month + m) 1 t.Location hz ry rm (by omega)
  have hns : (t.Start [y, m, d]).time.ns
      = (t.Start [y, m]).time.ns + (t.Day + d - 1) * 86400000000000 := by
    have := Date_ns_diff (t.Year + y) (t.Month + m) (t.Day + d) 0 0 0 0 1 0 0 0 0 t.Location
      hz ry rm rd (by decide) (by decide) (by decide) (by decide) (by decide) (by decide)
      (by decide) (by decide) (by decide)
    rw [s3, s2]
    omega
  rw [h1, h2, s3, s2]
  refine ⟨⟨b3, c3, d3, e3⟩, ⟨f1, f2, f3⟩, by rw [a3, a2]; omega, by rw [← s3, ← s2, hns], ?_, ?_⟩
  · intro L hL lo hi
    rw [f1, f2] at hL ⊢
    rw [DaysIn_month _ _ hr] at hL
    have hL := Option.some.inj hL
    exact Date_carried (t.Year + y) (t.Month + m) (t.Day + d) t.Location hz ry rm
      (by rw [hL]; omega)
  · intro L hL hi hcon
    rw [f1, f2] at hL hcon
    rw [DaysIn_month _ _ hr] at hL
    have hL := Option.some.inj hL
    obtain ⟨hy, hm⟩ := hcon
    obtain ⟨_, _, _, q, e⟩ := gotime.date_range
      (Date (t.Year + y) (t.Month + m) (t.Day + d) 0 0 0 0 t.Location).time
    have hy1 : (Date (t.Year + y) (t.Month + m) (t.Day + d) 0 0 0 0 t.Location).time.Year
        = t.Year + y + (t.Month + m - 1) / 12 := hy
    have hm1 : (Date (t.Year + y) (t.Month + m) (t.Day + d) 0 0 0 0 t.Location).time.Month
        = (t.Month + m - 1) % 12 + 1 := hm
    rw [hy1, hm1] at q e
    rw [a3] at e
    omega

/-- C8, amended, at 2023-01-15, where `Start(0, 1, 0)` is 2023-02-15 within the
28 days of February, and at 2023-01-31, where day 31 leaves February. -/
theorem C8_start_three_offsets_witness :
    ((jan15_2023.Start [0, 1, 0]).Year = (jan15_2023.Start [0, 1]).Year ∧
      (jan15_2023.Start [0, 1, 0]).Month = (jan15_2023.Start [0, 1]).Month ∧
      (jan15_2023.Start [0, 1, 0]).Day = jan15_2023.Day + 0) ∧
    ¬ ((jan31_2023.Start [0, 1, 0]).Year = (jan31_2023.Start [0, 1]).Year ∧
      (jan31_2023.Start [0, 1, 0]).Month = (jan31_2023.Start [0, 1]).Month) :=
  ⟨(C8_start_three_offsets jan15_2023 0 1 0 (by decide) (by decide) (by decide) (by decide)
      (by decide)).2.2.2.2.1 28 (by decide) (by decide) (by decide),
    (C8_start_three_offsets jan31_2023 0 1 0 (by decide) (by decide) (by decide) (by decide)
      (by decide)).2.2.2.2.2 28 (by decide) (by decide)⟩

/-- C9 on the code: with two arguments `AddMonth(m, d)` leaves `m` at its
default 1 (line 90 passes `m`, which only the one-argument branch assigns), so
it is `AddYear(0, 1, d)`: `AddMonth(2, 0)` on 2023-01-15 is 2023-02-15, while
`AddYear(0, 2, 0)` is 2023-03-15. -/
theorem C9_add_month_defect :
    jan15_2023.AddMonth [2, 0] = some (Date 2023 2 15 0 0 0 0 UTC) ∧
    jan15_2023.AddYear [0, 2, 0] = some (Date 2023 3 15 0 0 0 0 UTC) ∧
    jan15_2023.AddMonth [2, 0] ≠ jan15_2023.AddYear [0, 2, 0] ∧
    (∀ (t : Time) (m d : Int), t.AddMonth [m, d] = t.AddYear [0, 1, d]) ∧
    (∀ (t : Time) (m : Int), t.AddMonth [m] = t.AddYear [0, m]) ∧
    (∀ t : Time, t.AddMonth [] = t.AddYear [0, 1]) :=
  ⟨by decide, by decide, by decide, fun _ _ _ => rfl, fun _ _ => rfl, fun _ => rfl⟩

/-- C10 on the code: `GoYear(y, md...)` is `Go(y - t.Year(), md...)`, the
difference being taken in 64 bits, but with December selected and the day
selector 0 line 128 resolves the day to `maxDay + 1`, which `Date` carries
into the next year: `GoYear(2024, 12, 0)` on 2023-06-15 is 2025-01-01, whose
year is not 2024. -/
theorem C10_go_year_defect :
    jun15_2023.GoYear 2024 [12, 0] = some (Date 2025 1 1 12 30 15 500000000 (FixedZone 3600)) ∧
    jun15_2023.GoYear 2024 [12, 0] = jun15_2023.Go (2024 - jun15_2023.Year) [12, 0] ∧
    jun15_2023.goArgs (2024 - jun15_2023.Year) [12, 0] = some (2024, 12, 32) ∧
    (Date 2025 1 1 12 30 15 500000000 (FixedZone 3600)).Year = 2025 ∧
    (∀ (t : Time) (y : Int) (md : List Int),
      t.GoYear y md = t.Go (wrapInt64 (y - t.Year)) md ∧
      (-9000000000000000000 ≤ y ∧ y ≤ 9000000000000000000 →
        t.GoYear y md = t.Go (y - t.Year) md)) := by
  refine ⟨by decide, by decide, by decide, by decide, fun t y md => ⟨rfl, fun hy => ?_⟩⟩
  obtain ⟨y0, y1⟩ := Year_range t
  show t.Go (wrapInt64 (y - t.Year)) md = _
  rw [gotime.wrapInt64_of_range _ (by omega)]

/-- The Unix second of every instant built by `Date` is an `int64`. -/
theorem Date_valid (year month day hour min sec nsec : Int) (loc : Location) :
    (Date year month day hour min sec nsec loc).time.Valid := by
  have hu : (Date year month day hour min sec nsec loc).time.unixSec
      = gotime.resolveZone loc (gotime.dateUnix year month day hour min sec nsec) := by
    show (gotime.Date year month day hour min sec nsec loc).ns / 1000000000 = _
    simp only [gotime.Date]
    omega
  have hd : -9223372036854775808 ≤ gotime.dateUnix year month day hour min sec nsec ∧
      gotime.dateUnix year month day hour min sec nsec ≤ 9223372036854775807 := by
    unfold gotime.dateUnix
    exact gotime.wrapInt64_range _
  show -9223372036854775808 ≤ (Date year month day hour min sec nsec loc).time.unixSec ∧
    (Date year month day hour min sec nsec loc).time.unixSec ≤ 9223372036854775807
  rw [hu]
  unfold gotime.resolveZone
  simp only
  split
  · exact gotime.wrapInt64_range _
  · exact hd

/-- An instant of package `time` in a fixed location, with a small year, is
rebuilt by `Date` from its own fields. -/
theorem Date_self (t : Time) (hz : t.Location.Fixed) (hv : t.time.Valid) (hY : small t.Year) :
    Date t.Year t.Month t.Day t.Hour t.Minute (t.Second []) (t.Second [9]) t.Location = t := by
  obtain ⟨a, b, c, _, e⟩ := gotime.date_range t.time
  obtain ⟨_, _, _, _, hh, hmi, hs, hn⟩ := fields_range t
  have dhi := day_le t
  have hY2 : -100000000000 ≤ t.time.Year ∧ t.time.Year ≤ 100000000000 := hY
  have hh2 : 0 ≤ t.time.Hour ∧ t.time.Hour < 24 := hh
  have hmi2 : 0 ≤ t.time.Minute ∧ t.time.Minute < 60 := hmi
  have hs2 : 0 ≤ t.time.Second ∧ t.time.Second < 60 := hs
  have hn2 : 0 ≤ t.time.Nanosecond ∧ t.time.Nanosecond < 1000000000 := by
    rw [← Second_nine]; exact hn
  have dhi2 : t.time.Day ≤ 31 := dhi
  have h1 := gotime.ns_Date t.time.Year t.time.Month t.time.Day t.time.Hour t.time.Minute
    t.time.Second t.time.Nanosecond t.time.loc hz (by omega) (by omega) (by omega) hh2 hmi2 hs2
    hn2
  have h2 := gotime.ns_eq_abs t.time hz hv hY
  have h3 := gotime.abs_eq_clock t.time
  have e1 : (t.time.Month - 1) / 12 = 0 := by omega
  have e2 : (t.time.Month - 1) % 12 + 1 = t.time.Month := by omega
  rw [e1, e2, add_zero] at h1
  have hns : (gotime.Date t.time.Year t.time.Month t.time.Day t.time.Hour t.time.Minute
      t.time.Second t.time.Nanosecond t.time.loc).ns = t.time.ns := by
    rw [h1, h2, h3, e]
  rw [Second_nine]
  obtain ⟨⟨ns, loc⟩⟩ := t
  show (⟨gotime.Date _ _ _ _ _ _ _ _⟩ : Time) = _
  congr 1
  exact congrArg₂ gotime.Time.mk hns rfl

/-- Two instants of package `time` with the same fields and the same fixed
location, the year being small, are the same instant. -/
theorem eq_of_fields (r s : Time) (hz : r.Location.Fixed) (hvr : r.time.Valid)
    (hvs : s.time.Valid) (hY : small r.Year) (hy : r.Year = s.Year) (hm : r.Month = s.Month)
    (hd : r.Day = s.Day) (hh : r.Hour = s.Hour) (hmi : r.Minute = s.Minute)
    (hs : r.Second [] = s.Second []) (hn : r.Second [9] = s.Second [9])
    (hl : r.Location = s.Location) : r = s := by
  have e1 := Date_self r hz hvr hY
  have e2 := Date_self s (by rw [← hl]; exact hz) hvs (by rw [← hy]; exact hY)
  rw [← e1, ← e2, hy, hm, hd, hh, hmi, hs, hn, hl]

/-- Clock and location of the instant built by `Date` in the fixed location of
`t` from the clock of `t` and a date in range. -/
theorem Date_clock_of (t : Time) (Y M D : Int) (hz : t.Location.Fixed)
    (hy : -250000000000 ≤ Y ∧ Y ≤ 250000000000) (hm : -200000000000 ≤ M ∧ M ≤ 200000000000)
    (hd : -1000000000000 ≤ D ∧ D ≤ 1000000000000) :
    (Date Y M D t.Hour t.Minute (t.Second []) (t.Second [9]) t.Location).Hour = t.Hour ∧
    (Date Y M D t.Hour t.Minute (t.Second []) (t.Second [9]) t.Location).Minute = t.Minute ∧
    (Date Y M D t.Hour t.Minute (t.Second []) (t.Second [9]) t.Location).Second [] = t.Second [] ∧
    (Date Y M D t.Hour t.Minute (t.Second []) (t.Second [9]) t.Location).Second [9]
      = t.Second [9] ∧
    (Date Y M D t.Hour t.Minute (t.Second []) (t.Second [9]) t.Location).Location
      = t.Location := by
  obtain ⟨_, _, _, _, hh, hmi, hs, hn⟩ := fields_range t
  obtain ⟨c1, c2, c3, c4⟩ := gotime.clock_Date Y M D t.Hour t.Minute (t.Second [])
    (t.Second [9]) t.Location hz hy hm hd hh hmi hs hn
  refine ⟨c1, c2, c3, ?_, rfl⟩
  rw [Second_nine]
  exact c4

/-- With no offset `AddYear` returns the instant itself, when it is an instant
of package `time` in a fixed location with a small year. -/
theorem addYearClamped_zero (t : Time) (hz : t.Location.Fixed) (hv : t.time.Valid)
    (hY : small t.Year) : t.addYearClamped 0 0 = some t := by
  obtain ⟨_, e⟩ := addYearClamped_eq t 0 0
  obtain ⟨a, b, _, d, _⟩ := fields_range t
  have hf := addYearMonth_floor t 0 0 (by decide) (by decide)
  have e1 : t.Year + 0 + (t.Month + 0 - 1) / 12 = t.Year := by omega
  have e2 : (t.Month + 0 - 1) % 12 + 1 = t.Month := by omega
  rw [e1, e2] at hf
  rw [e, hf]
  simp only
  rw [min_eq_left d, Date_self t hz hv hY]

/-- The month looked up by `DaysIn` is an index into the table `maxDays`, and
the length found is one of 28, 29, 30, 31. -/
theorem DaysIn_in_bounds (y m : Int) (hm : 1 ≤ m ∧ m ≤ 12) :
    m.toNat < maxDays.length ∧
    ∃ L, DaysIn y [m] = some L ∧ (L = 28 ∨ L = 29 ∨ L = 30 ∨ L = 31) := by
  have hl := daysInMonth_range (gotime.isLeap y) m hm
  refine ⟨?_, _, DaysIn_month y m hm, by omega⟩
  have : maxDays.length = 13 := rfl
  omega

/-- Fields of `AddMonth()` applied `n` times in a fixed location, the years
passed being small: the year and month are those of `AddMonth(n)`, the clock
and location are kept, and the day never grows; it is kept when it is at most
28. -/
theorem addMonthTimes_fields (t : Time) (n : Nat) (hz : t.Location.Fixed)
    (hlo : -100000000000 ≤ t.Year) (hhi : t.Year + (n : Int) ≤ 100000000000) :
    ∃ b, addMonthTimes n t = some b ∧
      b.Year = t.Year + (t.Month + (n : Int) - 1) / 12 ∧
      b.Month = (t.Month + (n : Int) - 1) % 12 + 1 ∧
      b.Hour = t.Hour ∧ b.Minute = t.Minute ∧ b.Second [] = t.Second [] ∧
      b.Second [9] = t.Second [9] ∧ b.Location = t.Location ∧
      1 ≤ b.Day ∧ b.Day ≤ t.Day ∧
      b.Day ≤ gotime.daysInMonth (gotime.isLeap b.Year) b.Month ∧
      (t.Day ≤ 28 → b.Day = t.Day) ∧ (0 < n → b.time.Valid) := by
  induction n with
  | zero =>
    obtain ⟨a, b, c, d, _⟩ := fields_range t
    refine ⟨t, rfl, ?_, ?_, rfl, rfl, rfl, rfl, rfl, c, le_refl _, d, fun _ => rfl,
      fun h => absurd h (by decide)⟩
    · simp only [Nat.cast_zero]; omega
    · simp only [Nat.cast_zero]; omega
  | succ k ih =>
    have hk : t.Year + (k : Int) ≤ 100000000000 := by
      push_cast at hhi
      omega
    obtain ⟨b, hb, fy, fm, fh, fmi, fs, fn, fl, d1, d2, d3, d4, _⟩ := ih hk
    obtain ⟨ma, mb, _⟩ := fields_range t
    have hbY : small b.Year := by
      show -100000000000 ≤ b.Year ∧ b.Year ≤ 100000000000
      rw [fy]
      omega
    obtain ⟨r, hr, gy, gm, gd, gh, gmi, gs, gn, gl⟩ :=
      addYearClamped_fields b 0 1 (by rw [fl]; exact hz) hbY (by decide) (by decide)
    have hrv : r.time.Valid := by
      have e := (addYearClamped_eq b 0 1).2
      rw [hr] at e
      rw [Option.some.inj e]
      exact Date_valid _ _ _ _ _ _ _ _
    have hrange : 1 ≤ r.Month ∧ r.Month ≤ 12 := by rw [gm]; omega
    have hlen := daysInMonth_range (gotime.isLeap r.Year) r.Month hrange
    have hstep : addMonthTimes (k + 1) t = some r := by
      show (addMonthTimes k t).bind (fun r => r.AddMonth []) = some r
      rw [hb]
      exact hr
    refine ⟨r, hstep, ?_, ?_, by rw [gh, fh], by rw [gmi, fmi], by rw [gs, fs], by rw [gn, fn],
      by rw [gl, fl], ?_, ?_, ?_, ?_, fun _ => hrv⟩
    · rw [gy, fy, fm]; push_cast; omega
    · rw [gm, fm]; push_cast; omega
    · rw [gd]; exact le_min d1 (by omega)
    · rw [gd]; exact le_trans (min_le_left _ _) d2
    · rw [gd]; exact min_le_right _ _
    · intro h28
      rw [gd, d4 h28]
      exact min_eq_left (by omega)

/-- C11, as stated, fails: from 2023-12-31 and for the raw month 15,
`AddMonth(3)` is 2024-03-31, while `AddMonth()` three times passes the 29 days
of February 2024 and ends on 2024-03-29. -/
theorem C11_carry_equivalence_counterexample :
    dec31_2023.Month = 12 ∧
    dec31_2023.AddMonth [15 - 12] = some (Date 2024 3 31 0 0 0 0 UTC) ∧
    addMonthTimes 3 dec31_2023 = some (Date 2024 3 29 0 0 0 0 UTC) ∧
    dec31_2023.AddMonth [15 - 12] ≠ addMonthTimes (15 - 12 : Int).toNat dec31_2023 :=
  ⟨by decide, by decide, by decide, by decide⟩

/-- C11, amended. In a location with a fixed offset, for every instant `t`
whose month is 12 and whose year is within `5 * 10^10` of zero, and every raw
month `m` with `12 < m ≤ 5 * 10^10`, `t.AddMonth(m - 12)` and `AddMonth()`
repeated `m - 12` times from `t` agree in year, month, time of day and
location, and the day of the repeated addition is not later than the day of
the single one; when the day of `t` is at most 28 the two are the same
instant. -/
theorem C11_carry_equivalence (t : Time) (m : Int) (hz : t.Location.Fixed)
    (hY : -50000000000 ≤ t.Year ∧ t.Year ≤ 50000000000) (h12 : t.Month = 12)
    (hm : 12 < m ∧ m ≤ 50000000000) :
    (∃ a b, t.AddMonth [m - 12] = some a ∧ addMonthTimes (m - 12).toNat t = some b ∧
      a.Year = b.Year ∧ a.Month = b.Month ∧ a.Hour = b.Hour ∧ a.Minute = b.Minute ∧
      a.Second [] = b.Second [] ∧ a.Second [9] = b.Second [9] ∧ a.Location = b.Location ∧
      b.Day ≤ a.Day ∧
      a.Year = t.Year + 1 + (m - 13) / 12 ∧ a.Month = (m - 13) % 12 + 1) ∧
    (t.Day ≤ 28 → t.AddMonth [m - 12] = addMonthTimes (m - 12).toNat t) := by
  have hcast : (((m - 12).toNat : Nat) : Int) = m - 12 := Int.toNat_of_nonneg (by omega)
  have hpos : 0 < (m - 12).toNat := by omega
  obtain ⟨b, hb, fy, fm, fh, fmi, fs, fn, fl, d1, d2, d3, d4, bv⟩ :=
    addMonthTimes_fields t (m - 12).toNat hz (by omega) (by rw [hcast]; omega)
  obtain ⟨a, ha, gy, gm, gd, gh, gmi, gs, gn, gl⟩ :=
    addYearClamped_fields t 0 (m - 12) hz (by omega) (by decide) (by omega)
  have hav : a.time.Valid := by
    have e := (addYearClamped_eq t 0 (m - 12)).2
    rw [ha] at e
    rw [Option.some.inj e]
    exact Date_valid _ _ _ _ _ _ _ _
  rw [hcast] at fy fm
  have ha2 : t.AddMonth [m - 12] = some a := ha
  have hyy : a.Year = b.Year := by rw [gy, fy]; omega
  have hmm : a.Month = b.Month := by rw [gm, fm]
  have hday : b.Day ≤ a.Day := by
    rw [gd]
    refine le_min d2 ?_
    rw [hyy, hmm]
    exact d3
  have haY : small a.Year := by
    show -100000000000 ≤ a.Year ∧ a.Year ≤ 100000000000
    rw [gy, h12]
    omega
  refine ⟨⟨a, b, ha2, hb, hyy, hmm, by rw [gh, fh], by rw [gmi, fmi], by rw [gs, fs],
    by rw [gn, fn], by rw [gl, fl], hday, ?_, ?_⟩, ?_⟩
  · rw [gy, h12]; omega
  · rw [gm, h12]; omega
  · intro h28
    rw [ha2, hb]
    congr 1
    have hlen := daysInMonth_range (gotime.isLeap a.Year) a.Month (by rw [gm]; omega)
    refine eq_of_fields a b (by rw [gl]; exact hz) hav (bv hpos) haY hyy hmm ?_ (by rw [gh, fh])
      (by rw [gmi, fmi]) (by rw [gs, fs]) (by rw [gn, fn]) (by rw [gl, fl])
    rw [d4 h28, gd]
    exact min_eq_left (by omega)

/-- C11, amended, from 2023-12-15 12:30:15.5 UTC+1 and for the raw month 15. -/
theorem C11_carry_equivalence_witness :
    dec15_2023.AddMonth [15 - 12] = addMonthTimes (15 - 12 : Int).toNat dec15_2023 :=
  (C11_carry_equivalence dec15_2023 15 (by decide) (by decide) (by decide) (by decide)).2
    (by decide)

/-- C12. For every integer year `y`, zero and negative years included,
`IsLeapYear(y)` is true if and only if `y` is divisible by 4 and `y` is not
divisible by 100 or is divisible by 400; Go's truncating `%` tests
divisibility for every sign. -/
theorem C12_leap_year (y : Int) :
    (IsLeapYear y = true ↔ (4 ∣ y ∧ (¬ 100 ∣ y ∨ 400 ∣ y))) ∧
    (IsLeapYear y = true ↔ (y % 4 = 0 ∧ (y % 100 ≠ 0 ∨ y % 400 = 0))) ∧
    IsLeapYear 0 = true ∧ IsLeapYear (-4) = true ∧ IsLeapYear (-100) = false ∧
    IsLeapYear (-400) = true ∧ IsLeapYear (-1) = false ∧ IsLeapYear 1900 = false ∧
    IsLeapYear 2000 = true ∧ IsLeapYear 2024 = true ∧ IsLeapYear 2023 = false := by
  have h : IsLeapYear y = true ↔ (y % 4 = 0 ∧ (y % 100 ≠ 0 ∨ y % 400 = 0)) := by
    rw [IsLeapYear_eq, gotime.isLeap_iff]
  refine ⟨?_, h, by decide, by decide, by decide, by decide, by decide, by decide, by decide,
    by decide, by decide⟩
  rw [h, Int.dvd_iff_emod_eq_zero, Int.dvd_iff_emod_eq_zero, Int.dvd_iff_emod_eq_zero]

/-- The table of month lengths named by the spec, January first. -/
theorem DaysIn_table (y m : Int) (hm : 1 ≤ m ∧ m ≤ 12) :
    DaysIn y [m] = (if m = 2 ∧ IsLeapYear y = true then some 29
      else [31, 28, 31, 30, 31, 30, 31, 31, 30, 31, 30, 31][(m - 1).toNat]?) := by
  obtain ⟨h1, h12⟩ := hm
  simp only [DaysIn]
  cases IsLeapYear y <;> interval_cases m <;> simp [maxDays]

/-- C13. For every year `y` and month `m` in `[1, 12]`, `DaysIn(y, m)` is the
table value of the month, except that February is 29 exactly when
`IsLeapYear(y)`; it does not depend on the year for `m != 2`; `DaysIn(y)` is
366 in a leap year and 365 otherwise; with the examples of the spec. -/
theorem C13_days_in (y m : Int) (hm : 1 ≤ m ∧ m ≤ 12) :
    DaysIn y [m] = (if m = 2 ∧ IsLeapYear y = true then some 29
      else [31, 28, 31, 30, 31, 30, 31, 31, 30, 31, 30, 31][(m - 1).toNat]?) ∧
    (∃ L, DaysIn y [m] = some L ∧ 28 ≤ L ∧ L ≤ 31) ∧
    (DaysIn y [2] = some 29 ↔ IsLeapYear y = true) ∧
    (DaysIn y [2] = some 28 ↔ IsLeapYear y = false) ∧
    (∀ y2 : Int, m = 2 ∨ DaysIn y [m] = DaysIn y2 [m]) ∧
    DaysIn y [] = some (if IsLeapYear y = true then 366 else 365) ∧
    DaysIn 2024 [] = some 366 ∧ DaysIn 2023 [] = some 365 ∧ DaysIn 2024 [2] = some 29 ∧
    DaysIn 1900 [2] = some 28 ∧ DaysIn 2000 [2] = some 29 := by
  refine ⟨DaysIn_table y m hm, ?_, ?_, ?_, ?_, ?_, by decide, by decide, by decide, by decide,
    by decide⟩
  · rw [DaysIn_month y m hm]
    exact ⟨_, rfl, daysInMonth_range _ _ hm⟩
  · rw [DaysIn_table y 2 (by decide)]
    cases IsLeapYear y <;> simp
  · rw [DaysIn_table y 2 (by decide)]
    cases IsLeapYear y <;> simp
  · intro y2
    by_cases h2 : m = 2
    · exact Or.inl h2
    · right
      rw [DaysIn_table y m hm, DaysIn_table y2 m hm]
      simp [h2]
  · simp only [DaysIn]
    cases IsLeapYear y <;> simp

/-- C13, for April 2023: 30 days. -/
theorem C13_days_in_witness : ∃ L : Int, DaysIn 2023 [4] = some L ∧ 28 ≤ L ∧ L ≤ 31 :=
  (C13_days_in 2023 4 (by decide)).2.1

/-- C14. Sub-second extraction: for every non-zero `n`, `Second(n)` is the
nanosecond field divided, truncating, by `10^(9 - c)` with `c` the value of `n`
clamped to `[1, 9]`, so it lies in `[0, 10^c)`; `Second(9)` is the full
nanosecond field; `Second()` and `Second(0)` are the whole seconds 0 to 59. -/
theorem C14_second_precision (t : Time) (n : Int) (hn : n ≠ 0) :
    t.Second [n] = Int.tdiv t.time.Nanosecond (10 ^ (9 - Clamp n 1 9).toNat) ∧
    t.Second [n] = t.time.Nanosecond / 10 ^ (9 - Clamp n 1 9).toNat ∧
    (1 ≤ Clamp n 1 9 ∧ Clamp n 1 9 ≤ 9) ∧
    (0 ≤ t.Second [n] ∧ t.Second [n] < 10 ^ (Clamp n 1 9).toNat) ∧
    t.Second [9] = t.time.Nanosecond ∧
    (0 ≤ t.Second [9] ∧ t.Second [9] < 1000000000) ∧
    t.Second [] = t.time.Second ∧ t.Second [0] = t.time.Second ∧
    (0 ≤ t.Second [] ∧ t.Second [] ≤ 59) := by
  obtain ⟨_, _, _, _, s0, s60, n0, n9⟩ := gotime.clock_range t.time
  have hc : 1 ≤ Clamp n 1 9 ∧ Clamp n 1 9 ≤ 9 := by
    unfold Clamp
    split
    · omega
    · split <;> omega
  have e1 : t.Second [n] = Int.tdiv t.time.Nanosecond (10 ^ (9 - Clamp n 1 9).toNat) := by
    simp [Time.Second, hn]
  have e2 : Int.tdiv t.time.Nanosecond (10 ^ (9 - Clamp n 1 9).toNat)
      = t.time.Nanosecond / 10 ^ (9 - Clamp n 1 9).toNat :=
    Int.tdiv_eq_ediv n0 (by positivity)
  have e3 : t.Second [] = t.time.Second := rfl
  have e4 : t.Second [0] = t.time.Second := rfl
  refine ⟨e1, by rw [e1, e2], hc, ?_, Second_nine t, by rw [Second_nine]; exact ⟨n0, n9⟩,
    e3, e4, by rw [e3]; omega⟩
  rw [e1, e2]
  obtain ⟨c1, c9⟩ := hc
  have hab : (Clamp n 1 9).toNat + (9 - Clamp n 1 9).toNat = 9 := by omega
  refine ⟨Int.ediv_nonneg n0 (by positivity), Int.ediv_lt_of_lt_mul (by positivity) ?_⟩
  rw [← pow_add, hab]
  norm_num
  exact n9

/-- C14, for 3 digits of 2023-06-15 12:30:15.5: 500 milliseconds. -/
theorem C14_second_precision_witness :
    jun15_2023.Second [3] = Int.tdiv jun15_2023.time.Nanosecond (10 ^ (9 - Clamp 3 1 9).toNat) :=
  (C14_second_precision jun15_2023 3 (by decide)).1

/-- Go `UnixNano` is the nanosecond count of the instant, wrapped to `int64`. -/
theorem UnixNano_eq (t : gotime.Time) : t.UnixNano = wrapInt64 t.ns := by
  have e : t.unixSec * 1000000000 + t.Nanosecond = t.ns := by
    simp only [gotime.Time.unixSec, gotime.Time.Nanosecond]
    omega
  rw [gotime.Time.UnixNano, e]

/-- C15, as stated, fails: line 336 adds 10 to `n` in 64 bits. For `n` the
largest `int` the sum wraps below zero, the clamp gives 1 and the code divides
by `10^18`: on 2023-11-14 22:13:20.123456789 UTC, `Unix(9223372036854775807)`
is 1, not the nanosecond timestamp 1700000000123456789 that every `n >= 9` is
claimed to give. -/
theorem C15_unix_precision_counterexample :
    nov14_2023.Unix [9] = 1700000000123456789 ∧
    nov14_2023.time.UnixNano = 1700000000123456789 ∧
    wrapInt64 (9223372036854775807 + 10) = -9223372036854775799 ∧
    Clamp (wrapInt64 (9223372036854775807 + 10)) 1 19 = 1 ∧
    Clamp (9223372036854775807 + 10) 1 19 = 19 ∧
    nov14_2023.Unix [9223372036854775807] = 1 ∧
    nov14_2023.Unix [9223372036854775807] ≠ nov14_2023.time.UnixNano :=
  ⟨by decide, by decide, by decide, by decide, by decide, by decide, by decide⟩

/-- C15, amended. Timestamp precision: for every non-zero `n` with
`n + 10` within 64 bits (`n ≤ 9223372036854775797`), `t.Unix(n)` is the
nanosecond Unix timestamp `UnixNano()` divided by `10^(19 - p)` with `p` the
value of `n + 10` clamped to `[1, 19]`; so `Unix(3)` is the millisecond
timestamp (divisor `10^6`), `Unix(6)` the microsecond timestamp (divisor
`10^3`), `Unix(9)` and every such `n >= 9` the nanosecond timestamp, and
`Unix()` and `Unix(0)` are the whole seconds. `UnixNano()` is the nanosecond
count of the instant wrapped to 64 bits. -/
theorem C15_unix_precision (t : Time) (n : Int) (hn : n ≠ 0)
    (hr : -9223372036854775808 ≤ n ∧ n ≤ 9223372036854775797) :
    t.Unix [n] = Int.tdiv t.time.UnixNano (10 ^ (19 - Clamp (n + 10) 1 19).toNat) ∧
    (1 ≤ Clamp (n + 10) 1 19 ∧ Clamp (n + 10) 1 19 ≤ 19) ∧
    (9 ≤ n → t.Unix [n] = t.time.UnixNano) ∧
    t.Unix [3] = Int.tdiv t.time.UnixNano 1000000 ∧
    t.Unix [6] = Int.tdiv t.time.UnixNano 1000 ∧
    t.Unix [9] = t.time.UnixNano ∧
    t.time.UnixNano = wrapInt64 t.time.ns ∧
    (-9223372036854775808 ≤ t.time.ns ∧ t.time.ns ≤ 9223372036854775807 →
      t.time.UnixNano = t.time.ns) ∧
    t.Unix [] = t.time.Unix ∧ t.Unix [0] = t.time.Unix ∧
    t.time.Unix = t.time.ns / 1000000000 := by
  have hc : 1 ≤ Clamp (n + 10) 1 19 ∧ Clamp (n + 10) 1 19 ≤ 19 := by
    unfold Clamp
    split
    · omega
    · split <;> omega
  have hw : wrapInt64 (n + 10) = n + 10 := gotime.wrapInt64_of_range _ (by omega)
  have e1 : t.Unix [n] = Int.tdiv t.time.UnixNano (10 ^ (19 - Clamp (n + 10) 1 19).toNat) := by
    simp [Time.Unix, hn, hw]
  have e3 : t.Unix [3] = Int.tdiv t.time.UnixNano 1000000 := rfl
  have e6 : t.Unix [6] = Int.tdiv t.time.UnixNano 1000 := rfl
  have e9 : t.Unix [9] = t.time.UnixNano := by
    show Int.tdiv t.time.UnixNano 1 = _
    exact Int.tdiv_one _
  refine ⟨e1, hc, ?_, e3, e6, e9, UnixNano_eq t.time, ?_, rfl, rfl, rfl⟩
  · intro h9
    have hcl : Clamp (n + 10) 1 19 = 19 := by
      unfold Clamp
      split
      · omega
      · split <;> omega
    rw [e1, hcl]
    exact Int.tdiv_one _
  · intro h
    rw [UnixNano_eq, gotime.wrapInt64_of_range _ h]

/-- C15, amended, for the millisecond timestamp of 2023-11-14
22:13:20.123456789 UTC. -/
theorem C15_unix_precision_witness :
    nov14_2023.Unix [3]
      = Int.tdiv nov14_2023.time.UnixNano (10 ^ (19 - Clamp (3 + 10) 1 19).toNat) :=
  (C15_unix_precision nov14_2023 3 (by decide) (by decide)).1

/-- C16. Constructor threshold and round trip: for every `int64` value `s`,
`Unix(s)` is the instant `s` whole seconds after the epoch when
`s <= 9999999999` and the instant `s` nanoseconds after the epoch when
`s >= 10000000000`; so `Unix(s).Unix() = s` in the first case and
`Unix(s).Unix(9) = s` in the second. -/
theorem C16_unix_constructor (Local : Location) (s : Int)
    (hs : -9223372036854775808 ≤ s ∧ s ≤ 9223372036854775807) :
    (s ≤ 9999999999 →
      Unix Local s = ⟨gotime.Unix s 0 Local⟩ ∧ (Unix Local s).time.ns = s * 1000000000 ∧
      (Unix Local s).Unix [] = s ∧ (Unix Local s).Unix [0] = s) ∧
    (10000000000 ≤ s →
      Unix Local s = ⟨gotime.Unix 0 s Local⟩ ∧ (Unix Local s).time.ns = s ∧
      (Unix Local s).Unix [9] = s) ∧
    (Unix Local s).Location = Local := by
  refine ⟨?_, ?_, ?_⟩
  · intro h
    have e : Unix Local s = ⟨gotime.Unix s 0 Local⟩ := by
      simp only [Unix, if_pos h]
    have e2 : (Unix Local s).time.ns = s * 1000000000 := by
      rw [e]
      simp only [gotime.Unix]
      rw [gotime.wrapInt64_of_range _ (by omega)]
      omega
    have e3 : (Unix Local s).Unix [] = s := by
      show (Unix Local s).time.ns / 1000000000 = s
      rw [e2]
      omega
    exact ⟨e, e2, e3, e3⟩
  · intro h
    have e : Unix Local s = ⟨gotime.Unix 0 s Local⟩ := by
      simp only [Unix, if_neg (by omega : ¬ s ≤ 9999999999)]
    have e2 : (Unix Local s).time.ns = s := by
      rw [e]
      simp only [gotime.Unix]
      rw [gotime.wrapInt64_of_range _ (by omega)]
      omega
    refine ⟨e, e2, ?_⟩
    have e9 : (Unix Local s).Unix [9] = (Unix Local s).time.UnixNano := by
      show Int.tdiv (Unix Local s).time.UnixNano 1 = _
      exact Int.tdiv_one _
    rw [e9, UnixNano_eq, e2, gotime.wrapInt64_of_range s hs]
  · unfold Unix
    split <;> rfl

/-- C16, at the last timestamp read as seconds and the first read as
nanoseconds. -/
theorem C16_unix_constructor_witness :
    ((Unix UTC 9999999999).time.ns = 9999999999 * 1000000000 ∧
      (Unix UTC 9999999999).Unix [] = 9999999999) ∧
    ((Unix UTC 10000000000).time.ns = 10000000000 ∧
      (Unix UTC 10000000000).Unix [9] = 10000000000) :=
  ⟨⟨((C16_unix_constructor UTC 9999999999 (by decide)).1 (by decide)).2.1,
    ((C16_unix_constructor UTC 9999999999 (by decide)).1 (by decide)).2.2.1⟩,
   ⟨((C16_unix_constructor UTC 10000000000 (by decide)).2.1 (by decide)).2.1,
    ((C16_unix_constructor UTC 10000000000 (by decide)).2.1 (by decide)).2.2⟩⟩

/-- C17 on the code: the millisecond timestamp of 2023-11-14
22:13:20.123456789 UTC is 1700000000123, which has 13 digits; the constructor
`Unix` takes every value above 9999999999 as nanoseconds, so it returns the
instant 1700000000123 nanoseconds after the epoch instead of that many
milliseconds, and its `Unix(3)` is 1700000, not 1700000000123. -/
theorem C17_unix_millis_defect :
    nov14_2023.Unix [3] = 1700000000123 ∧
    (∀ Local : Location,
      (Unix Local 1700000000123).time.ns = 1700000000123 ∧
      (Unix Local 1700000000123).time.ns ≠ 1700000000123 * 1000000 ∧
      (Unix Local 1700000000123).Unix [3] = 1700000 ∧
      (Unix Local 1700000000123).Unix [3] ≠ 1700000000123) := by
  refine ⟨by decide, ?_⟩
  intro Local
  have e : Unix Local 1700000000123 = ⟨gotime.Unix 0 1700000000123 Local⟩ := rfl
  have e2 : (Unix Local 1700000000123).time.ns = 1700000000123 := by
    rw [e]; rfl
  have e3 : (Unix Local 1700000000123).Unix [3] = 1700000 := by
    show Int.tdiv (Unix Local 1700000000123).time.UnixNano 1000000 = 1700000
    rw [UnixNano_eq, e2]
    decide
  refine ⟨e2, by rw [e2]; decide, e3, by rw [e3]; decide⟩

/-- C18. `DaysIn` is never indexed out of range: in the calls made by
`AddYear` with at most two offsets, by `Go`, `GoYear`, `GoMonth`, `GoDay` and
by `MonthDays`, the month lies in `[1, 12]`, so the lookup in the table of 13
entries is in bounds, the result is one of 28, 29, 30, 31, and none of these
functions panics. -/
theorem C18_days_in_in_bounds (t : Time) (y m d : Int) (md dl : List Int) :
    (1 ≤ (t.addYearMonth y m).2 ∧ (t.addYearMonth y m).2 ≤ 12 ∧
      (t.addYearMonth y m).2.toNat < maxDays.length ∧
      (∃ L, DaysIn (t.addYearMonth y m).1 [(t.addYearMonth y m).2] = some L ∧
        (L = 28 ∨ L = 29 ∨ L = 30 ∨ L = 31)) ∧
      (t.AddYear [y, m]).isSome = true ∧ (t.AddYear [y]).isSome = true ∧
      (t.AddYear []).isSome = true ∧ (t.AddMonth [m]).isSome = true ∧
      (t.AddMonth []).isSome = true) ∧
    (1 ≤ t.goMonthSel md ∧ t.goMonthSel md ≤ 12 ∧
      (t.goMonthSel md).toNat < maxDays.length ∧
      (∃ L, DaysIn (t.Year + y) [t.goMonthSel md] = some L ∧
        (L = 28 ∨ L = 29 ∨ L = 30 ∨ L = 31)) ∧
      (∃ L, DaysIn (wrapInt64 (t.Year + y)) [t.goMonthSel md] = some L ∧
        (L = 28 ∨ L = 29 ∨ L = 30 ∨ L = 31)) ∧
      (t.Go y md).isSome = true ∧ (t.GoYear y md).isSome = true ∧
      (t.GoMonth m dl).isSome = true ∧ (t.GoDay d).isSome = true) ∧
    (1 ≤ t.Month ∧ t.Month ≤ 12 ∧ t.Month.toNat < maxDays.length ∧
      ∃ L, t.MonthDays = some L ∧ (L = 28 ∨ L = 29 ∨ L = 30 ∨ L = 31)) ∧
    maxDays.length = 13 := by
  have hadd : ∀ a b : Int, (t.addYearClamped a b).isSome = true := by
    intro a b
    rw [(addYearClamped_eq t a b).2]
    rfl
  have hgo : ∀ (a : Int) (l : List Int), (t.Go a l).isSome = true := by
    intro a l
    rw [(Go_eq t a l).2]
    rfl
  have hr := addYearMonth_range t y m
  have hg := goMonthSel_range t md
  obtain ⟨a, b, _⟩ := fields_range t
  obtain ⟨i1, l1⟩ := DaysIn_in_bounds (t.addYearMonth y m).1 _ hr
  obtain ⟨i2, l2⟩ := DaysIn_in_bounds (t.Year + y) _ hg
  obtain ⟨_, l2w⟩ := DaysIn_in_bounds (wrapInt64 (t.Year + y)) _ hg
  obtain ⟨i3, l3⟩ := DaysIn_in_bounds t.Year _ ⟨a, b⟩
  refine ⟨⟨hr.1, hr.2, i1, l1, hadd y m, hadd y 0, hadd 1 0, hadd 0 m, hadd 0 1⟩,
    ⟨hg.1, hg.2, i2, l2, l2w, hgo y md, hgo _ md, ?_, hgo 0 [0, d]⟩, ⟨a, b, i3, l3⟩, rfl⟩
  cases dl with
  | nil => exact hgo 0 [m, 0]
  | cons d0 _ => exact hgo 0 [m, d0]

/-- C19, as stated, fails for its last sentence where a wall-clock time is
repeated: 2023-11-05 01:30:00 occurs twice in New York, first at UTC-4 and an
hour later at UTC-5. From the later instant, 1699165800 seconds after the
epoch, `AddYear(0, 0)` passes the unchanged fields to `Date`, which returns
the earlier instant, 1699162200 seconds after the epoch, not `t` itself. -/
theorem C19_time_of_day_frame_counterexample :
    nov05_2023_ny.time.ns = 1699165800000000000 ∧
    (nov05_2023_ny.Year = 2023 ∧ nov05_2023_ny.Month = 11 ∧ nov05_2023_ny.Day = 5 ∧
      nov05_2023_ny.Hour = 1 ∧ nov05_2023_ny.Minute = 30) ∧
    nov05_2023_ny.addYearArgs 0 0 = some (2023, 11, 5) ∧
    nov05_2023_ny.AddYear [0, 0] = some (Date 2023 11 5 1 30 0 0 newYork) ∧
    (Date 2023 11 5 1 30 0 0 newYork).time.ns = 1699162200000000000 ∧
    nov05_2023_ny.AddYear [0, 0] ≠ some nov05_2023_ny :=
  ⟨by decide, ⟨by decide, by decide, by decide, by decide, by decide⟩, by decide, by decide,
    by decide, by decide⟩

/-- C19, amended. Time-of-day frame: `AddYear` with at most two offsets and
`Go`, hence `AddMonth(m)`, `GoYear`, `GoMonth` and `GoDay`, pass the hour,
minute, second, nanosecond field (`t.Second(9)`) and location of `t` unchanged
to `Date`; only year, month and day change, and the instant returned has the
nanosecond field and the location of `t`. For an instant of package `time` in
a location with a fixed offset, and for a year and offsets within `10^11` of
zero, the instant returned has the hour, minute and second of `t` as well, and
`AddYear(0, 0)` returns `t` itself. -/
theorem C19_time_of_day_frame (t : Time) (y m d : Int) (md dl : List Int) :
    (∃ Y M D r, t.addYearArgs y m = some (Y, M, D) ∧
      r = Date Y M D t.Hour t.Minute (t.Second []) (t.Second [9]) t.Location ∧
      t.AddYear [y, m] = some r ∧ r.Second [9] = t.Second [9] ∧ r.Location = t.Location) ∧
    (t.AddYear [] = t.AddYear [1, 0] ∧ t.AddYear [y] = t.AddYear [y, 0] ∧
      t.AddMonth [] = t.AddYear [0, 1] ∧ t.AddMonth [m] = t.AddYear [0, m]) ∧
    (∃ Y M D r, t.goArgs y md = some (Y, M, D) ∧
      r = Date Y M D t.Hour t.Minute (t.Second []) (t.Second [9]) t.Location ∧
      t.Go y md = some r ∧ r.Second [9] = t.Second [9] ∧ r.Location = t.Location) ∧
    (t.GoYear y md = t.Go (wrapInt64 (y - t.Year)) md ∧
      t.GoMonth m dl = t.Go 0 [m, dl.headD 0] ∧ t.GoDay d = t.Go 0 [0, d]) ∧
    t.Second [9] = t.time.Nanosecond ∧
    (t.Location.Fixed → small t.Year → small y → small m →
      (∃ r, t.AddYear [y, m] = some r ∧
        r.Hour = t.Hour ∧ r.Minute = t.Minute ∧ r.Second [] = t.Second [] ∧
        r.Second [9] = t.Second [9] ∧ r.Location = t.Location) ∧
      (∃ r, t.Go y md = some r ∧
        r.Hour = t.Hour ∧ r.Minute = t.Minute ∧ r.Second [] = t.Second [] ∧
        r.Second [9] = t.Second [9] ∧ r.Location = t.Location)) ∧
    (t.Location.Fixed → t.time.Valid → small t.Year → t.AddYear [0, 0] = some t) := by
  have hnano : ∀ Y M D : Int,
      (Date Y M D t.Hour t.Minute (t.Second []) (t.Second [9]) t.Location).Second [9]
        = t.Second [9] := by
    intro Y M D
    obtain ⟨_, _, _, _, _, _, _, hn⟩ := fields_range t
    rw [Second_nine]
    show (gotime.Date Y M D t.Hour t.Minute (t.Second []) (t.Second [9]) t.Location).Nanosecond = _
    rw [gotime.nanosecond_Date]
    omega
  refine ⟨?_, ⟨rfl, rfl, rfl, rfl⟩, ?_, ⟨rfl, ?_, rfl⟩, Second_nine t, ?_,
    fun hz hv hY => addYearClamped_zero t hz hv hY⟩
  · obtain ⟨e1, e2⟩ := addYearClamped_eq t y m
    exact ⟨_, _, _, _, e1, rfl, e2, hnano _ _ _, rfl⟩
  · obtain ⟨e1, e2⟩ := Go_eq t y md
    exact ⟨_, _, _, _, e1, rfl, e2, hnano _ _ _, rfl⟩
  · cases dl <;> rfl
  · intro hz hY hy hm
    constructor
    · obtain ⟨e1, e2⟩ := addYearClamped_eq t y m
      obtain ⟨_, _, dlo, _⟩ := fields_range t
      have dhi := day_le t
      have hr := addYearMonth_range t y m
      have hf := addYearMonth_floor t y m (by omega) (by omega)
      have hl := daysInMonth_range (gotime.isLeap (t.addYearMonth y m).1) (t.addYearMonth y m).2
        hr
      have hyr : -250000000000 ≤ (t.addYearMonth y m).1 ∧
          (t.addYearMonth y m).1 ≤ 250000000000 := by
        obtain ⟨ma, mb, _⟩ := fields_range t
        rw [hf]
        simp only
        omega
      have hdr : -1000000000000 ≤ min t.Day (gotime.daysInMonth
            (gotime.isLeap (t.addYearMonth y m).1) (t.addYearMonth y m).2) ∧
          min t.Day (gotime.daysInMonth (gotime.isLeap (t.addYearMonth y m).1)
            (t.addYearMonth y m).2) ≤ 1000000000000 :=
        ⟨le_trans (by decide) (le_min dlo (by omega : (1 : Int) ≤ _)),
          le_trans (min_le_left _ _) (by omega)⟩
      obtain ⟨c1, c2, c3, c4, c5⟩ := Date_clock_of t (t.addYearMonth y m).1
        (t.addYearMonth y m).2
        (min t.Day (gotime.daysInMonth (gotime.isLeap (t.addYearMonth y m).1)
          (t.addYearMonth y m).2)) hz hyr (by omega) hdr
      exact ⟨_, e2, c1, c2, c3, c4, c5⟩
    · obtain ⟨e1, e2⟩ := Go_eq t y md
      have w : wrapInt64 (t.Year + y) = t.Year + y := gotime.wrapInt64_of_range _ (by omega)
      have hg := goMonthSel_range t md
      have hl := daysInMonth_range (gotime.isLeap (wrapInt64 (t.Year + y))) (t.goMonthSel md) hg
      have hdr : -1000000000000 ≤ goDay (gotime.daysInMonth
            (gotime.isLeap (wrapInt64 (t.Year + y))) (t.goMonthSel md)) (t.goDaySel md) ∧
          goDay (gotime.daysInMonth (gotime.isLeap (wrapInt64 (t.Year + y)))
            (t.goMonthSel md)) (t.goDaySel md) ≤ 1000000000000 := by
        unfold goDay
        split <;> omega
      obtain ⟨c1, c2, c3, c4, c5⟩ := Date_clock_of t (wrapInt64 (t.Year + y)) (t.goMonthSel md)
        (goDay (gotime.daysInMonth (gotime.isLeap (wrapInt64 (t.Year + y))) (t.goMonthSel md))
          (t.goDaySel md)) hz (by rw [w]; omega) (by omega) hdr
      exact ⟨_, e2, c1, c2, c3, c4, c5⟩

/-- C19, amended, at 2023-06-15 12:30:15.5 UTC+1: `AddYear(0, 0)` returns the
instant itself. -/
theorem C19_time_of_day_frame_witness :
    jun15_2023.AddYear [0, 0] = some jun15_2023 :=
  (C19_time_of_day_frame jun15_2023 0 0 0 [] []).2.2.2.2.2.2 (by decide) (by decide) (by decide)

/-- C20 on the code: 2023-02-01 is later than 2023-01-31, yet its `DiffIn` in
unit "M" is `-30/31`: lines 428 and 433 take the incomplete month off twice,
as in C6. The difference of an instant with itself is 0. -/
theorem C20_month_diff_sign_defect :
    feb01_2023.DiffIn jan31_2023 "M" = some (-30 / 31) ∧
    (feb01_2023.Year = 2023 ∧ feb01_2023.Month = 2 ∧ feb01_2023.Day = 1) ∧
    (jan31_2023.Year = 2023 ∧ jan31_2023.Month = 1 ∧ jan31_2023.Day = 31) ∧
    (-30 / 31 : ℚ) < 0 ∧
    (∀ t : Time, t.DiffIn t "M" = some 0) := by
  have y1 : feb01_2023.Year = 2023 := by decide
  have y2 : jan31_2023.Year = 2023 := by decide
  have m1 : feb01_2023.Month = 2 := by decide
  have m2 : jan31_2023.Month = 1 := by decide
  have d1 : feb01_2023.Day = 1 := by decide
  have d2 : jan31_2023.Day = 31 := by decide
  have md : jan31_2023.MonthDays = some 31 := by decide
  have s1 : ¬ ("M" = "y") := by decide
  refine ⟨?_, ⟨y1, m1, d1⟩, ⟨y2, m2, d2⟩, by norm_num, ?_⟩
  · simp only [Time.DiffIn, y1, y2, m1, m2, d1, d2, md, s1, if_false, if_true,
      Option.map_some']
    norm_num
  · intro t
    obtain ⟨a, b, _⟩ := fields_range t
    have hmd : t.MonthDays = some (gotime.daysInMonth (gotime.isLeap t.Year) t.Month) :=
      DaysIn_month _ _ ⟨a, b⟩
    simp only [Time.DiffIn, s1, if_false, if_true, hmd, Option.map_some']
    norm_num

end thru
